import Mathlib

/-!
Verification development for the AFA (Anxiety, Frequency & APIs) data
pipeline.  The Python sources under `data/src/` are shallowly embedded as
executable Lean definitions: strings are handled as `List Char`, SQLite
tables as lists of typed rows, numeric SQL/CSV values as `Option Int`
(`none` models SQL NULL / absent data), and fallible Python code as
`Except`.  Each section names the source file and function it embeds.
-/

namespace AFA

/-! ## Normalizer (kaggle_merge.py, `normalize_title` / `normalize_artist`)

Python regular-expression operations over `str` are embedded as scans over
`List Char`.  `\s` is modelled as the ASCII whitespace characters, and
`str.lower` as ASCII lower-casing (the chart data is ASCII).
-/

def isWs (c : Char) : Bool :=
  c == ' ' || c == '\t' || c == '\n' || c == '\r' || c == '\x0b' || c == '\x0c'

def asciiLower (c : Char) : Char :=
  if 'A' ≤ c && c ≤ 'Z' then Char.ofNat (c.toNat + 32) else c

def lowerStage (l : List Char) : List Char := l.map asciiLower

/-- Split a list at the first occurrence of character `t`:
`some (before, after)` with `l = before ++ t :: after` and `t ∉ before`. -/
def splitAtFirst (t : Char) : List Char → Option (List Char × List Char)
  | [] => none
  | c :: cs =>
    if c = t then some ([], cs)
    else
      match splitAtFirst t cs with
      | none => none
      | some (a, b) => some (c :: a, b)

/-- `re.sub(r"\([^)]*\)", " ", t)`: each match runs from a `'('` to the first
`')'` after it; all matches are replaced by a single space, scanning left to
right.  A `'('` with no later `')'` matches nothing.  The fuel argument only
bounds the recursion depth (each step removes at least two characters, so
`l.length` is always enough fuel). -/
def removeParensF : Nat → List Char → List Char
  | 0, l => l
  | fuel + 1, l =>
    match splitAtFirst '(' l with
    | none => l
    | some (before, after) =>
      match splitAtFirst ')' after with
      | none => l
      | some (_, rest) => before ++ ' ' :: removeParensF fuel rest

def removeParens (l : List Char) : List Char := removeParensF l.length l

def headIsWs : List Char → Bool
  | [] => false
  | c :: _ => isWs c

/-- After the initial whitespace character of a candidate `\s+-\s+` match:
skip further whitespace, then require `'-'` followed by whitespace. -/
def dashTail : List Char → Bool
  | [] => false
  | c :: cs => if isWs c then dashTail cs else c == '-' && headIsWs cs

/-- Does `\s+-\s+` match at the head of `l`? -/
def matchDashAt : List Char → Bool
  | [] => false
  | c :: cs => isWs c && dashTail cs

/-- `re.split(r"\s+-\s+", t)[0]`: the prefix before the leftmost match. -/
def takeUntilDash : List Char → List Char
  | [] => []
  | c :: cs => if matchDashAt (c :: cs) then [] else c :: takeUntilDash cs

def startsWith : List Char → List Char → Bool
  | [], _ => true
  | _ :: _, [] => false
  | p :: ps, c :: cs => p == c && startsWith ps cs

def titleLit (l : List Char) : Bool :=
  startsWith "feat.".toList l || startsWith "ft.".toList l ||
    startsWith "featuring".toList l

/-- Does `\s+feat\.|\s+ft\.|\s+featuring` match at the head of `l`?  The
literals start with a non-whitespace character, so the greedy `\s+` must
consume the whole whitespace run. -/
def matchTitleMarkAt : List Char → Bool
  | [] => false
  | c :: cs => isWs c && titleLit (cs.dropWhile isWs)

def artistLit (l : List Char) : Bool :=
  titleLit l || (startsWith "and".toList l && headIsWs (l.drop 3))

/-- Does `\s+feat\.|\s+ft\.|\s+featuring|\s+and\s+|&` match at the head? -/
def matchArtistMarkAt : List Char → Bool
  | [] => false
  | c :: cs => (isWs c && artistLit (cs.dropWhile isWs)) || c == '&'

/-- `re.split(pattern, t)[0]`: prefix before the leftmost marker match. -/
def takeUntilMark (m : List Char → Bool) : List Char → List Char
  | [] => []
  | c :: cs => if m (c :: cs) then [] else c :: takeUntilMark m cs

def okChar (c : Char) : Bool :=
  ('a' ≤ c && c ≤ 'z') || ('0' ≤ c && c ≤ '9')

/-- `re.sub(r"[^a-z0-9\s]", " ", t)` acts on each character separately. -/
def keepAllowed (c : Char) : Char :=
  if okChar c || isWs c then c else ' '

def stripOther (l : List Char) : List Char := l.map keepAllowed

/-- `re.sub(r"\s+", " ", t)`: the flag records whether the previous character
was whitespace (so a run produces one single space). -/
def collapseAux : Bool → List Char → List Char
  | _, [] => []
  | prev, c :: cs =>
    if isWs c then
      if prev then collapseAux true cs else ' ' :: collapseAux true cs
    else c :: collapseAux false cs

def collapseWs (l : List Char) : List Char := collapseAux false l

/-- Remove trailing whitespace: a character is dropped iff it is whitespace
and everything after it is dropped. -/
def dropTrailingWs : List Char → List Char
  | [] => []
  | c :: cs =>
    let r := dropTrailingWs cs
    if isWs c && r.isEmpty then [] else c :: r

/-- Python `str.strip()`. -/
def stripEnds (l : List Char) : List Char := dropTrailingWs (l.dropWhile isWs)

/-- Common tail of both normalizers: character strip, whitespace collapse,
trim. -/
def finishStage (l : List Char) : List Char := stripEnds (collapseWs (stripOther l))

/-- `kaggle_merge.normalize_title`. -/
def normalize_title (s : String) : String :=
  String.mk (finishStage (takeUntilMark matchTitleMarkAt
    (takeUntilDash (removeParens (lowerStage s.toList)))))

/-- `kaggle_merge.normalize_artist` (no parenthesis removal and no `" - "`
truncation; marker set additionally contains `\s+and\s+` and `&`). -/
def normalize_artist (s : String) : String :=
  String.mk (finishStage (takeUntilMark matchArtistMarkAt (lowerStage s.toList)))

/-- The title pipeline exactly as §4.1 of the spec words it: lower-case,
parenthesis removal, truncation at `" - "` or a feature marker, character
strip, whitespace collapse, trim. -/
def specTitleClaim (s : String) : String :=
  String.mk (finishStage (takeUntilMark matchTitleMarkAt
    (takeUntilDash (removeParens (lowerStage s.toList)))))

/-- The artist pipeline as the spec words it (claim C9): identical to the
title pipeline except that the truncation marker set additionally contains
`and`/`&` — in particular it also removes parenthesized substrings and
truncates at `" - "`. -/
def specArtistClaim (s : String) : String :=
  String.mk (finishStage (takeUntilMark matchArtistMarkAt
    (takeUntilDash (removeParens (lowerStage s.toList)))))

/-- `m` matches at no suffix of `l` (the marker split is the identity). -/
def noMarkB (m : List Char → Bool) : List Char → Bool
  | [] => true
  | c :: cs => !m (c :: cs) && noMarkB m cs

/-- Every character is in `[a-z0-9 ]`, every space is followed by an
alphanumeric character (no double space, no trailing space). -/
def goodTail : List Char → Bool
  | [] => true
  | [c] => okChar c
  | c :: d :: ds => (if c = ' ' then okChar d else okChar c) && goodTail (d :: ds)

def headIsSpace : List Char → Bool
  | [] => false
  | c :: _ => c == ' '

/-- Canonical normalizer output: characters in `[a-z0-9 ]`, single internal
spaces, no leading or trailing space. -/
def canonB (l : List Char) : Bool := !headIsSpace l && goodTail l

/-- Weaker shape after whitespace collapse (trailing space still allowed):
characters in `[a-z0-9 ]` with no two adjacent spaces. -/
def spacedOk : List Char → Bool
  | [] => true
  | [c] => okChar c || c == ' '
  | c :: d :: cs => (okChar c || c == ' ') && !(c == ' ' && d == ' ') && spacedOk (d :: cs)

/-! ## Release-year parsing (spotify_api.py, `get_spotify_track` lines 145-149)

`release_year = int(release_date.split("-")[0]) if release_date else None`,
where `int` raises `ValueError` on a non-numeric string.
-/

inductive PyError where
  | valueError
  | spotifyError
deriving DecidableEq

instance {ε α : Type} [DecidableEq ε] [DecidableEq α] : DecidableEq (Except ε α) := fun a b =>
  match a, b with
  | Except.ok x, Except.ok y => decidable_of_iff (x = y) (by simp)
  | Except.ok _, Except.error _ => isFalse (by simp)
  | Except.error _, Except.ok _ => isFalse (by simp)
  | Except.error e, Except.error f => decidable_of_iff (e = f) (by simp)

/-- `s.split(t)[0]`: everything before the first `t` (all of `s` if absent). -/
def pySplitHead (t : Char) (l : List Char) : List Char :=
  l.takeWhile (fun c => c != t)

def digitsToNat? (l : List Char) : Option Nat :=
  if !l.isEmpty && l.all (fun c => c.isDigit) then
    some (l.foldl (fun n c => 10 * n + (c.toNat - 48)) 0)
  else none

def pyIntCore : List Char → Option Int
  | [] => none
  | c :: cs =>
    if c = '+' then (digitsToNat? cs).map (fun n => (n : Int))
    else if c = '-' then (digitsToNat? cs).map (fun n => -(n : Int))
    else (digitsToNat? (c :: cs)).map (fun n => (n : Int))

/-- Python `int(str)`: surrounding whitespace ignored, optional sign, at
least one digit.  (PEP-515 digit-group underscores are not modelled; none of
the claims involves them.)  `none` models a raised `ValueError`. -/
def pyIntParse (l : List Char) : Option Int :=
  pyIntCore (stripEnds l)

/-- Lines 146-149 of `get_spotify_track`: the release-year computation.
`release_date` is `track["album"].get("release_date")`; `if release_date:`
is false for `None` and for the empty string. -/
def extract_release_year (release_date : Option String) : Except PyError (Option Int) :=
  match release_date with
  | none => Except.ok none
  | some s =>
    if s = "" then Except.ok none
    else
      match pyIntParse (pySplitHead '-' s.toList) with
      | some n => Except.ok (some n)
      | none => Except.error PyError.valueError

/-- The release-year rule as claim C4 words it: the first 4 digits of the
date string; null whenever the string is missing, empty, or its first four
characters are not all digits; never an error. -/
def specReleaseYear (release_date : Option String) : Option Int :=
  match release_date with
  | none => none
  | some s =>
    match s.toList with
    | a :: b :: c :: d :: _ =>
      if a.isDigit && b.isDigit && c.isDigit && d.isDigit then
        some ((1000 * (a.toNat - 48) + 100 * (b.toNat - 48) +
          10 * (c.toNat - 48) + (d.toNat - 48) : Nat) : Int)
      else none
    | _ => none

/-! ## Entity store (db_setup.py schema; tables as lists of typed rows)

SQL NULL is `none`.  Audio measures are REAL in SQLite; no arithmetic is
ever performed on them by the embedded code, so they are carried as opaque
`Int` values.  `AUTOINCREMENT` row ids are modelled as max-so-far + 1.
-/

structure ScrapedRow where
  id : Nat
  song_title : String
  artist_name : String
deriving DecidableEq

structure SongRow where
  song_id : Nat
  scraped_song_id : Nat
  spotify_track_id : String
  genre : Option String
  popularity : Option Int
  release_year : Option Int
deriving DecidableEq

structure FeatRow where
  id : Nat
  song_id : Nat
  valence : Option Int
  energy : Option Int
  danceability : Option Int
  tempo : Option Int
  acousticness : Option Int
  instrumentalness : Option Int
deriving DecidableEq

structure PopRow where
  id : Nat
  song_id : Nat
  listener_count : Option Int
  playcount : Option Int
deriving DecidableEq

structure DbState where
  scraped : List ScrapedRow
  songs : List SongRow
  feats : List FeatRow
  pops : List PopRow
deriving DecidableEq

def nextId (ids : List Nat) : Nat := ids.foldr max 0 + 1

/-! ## Spotify resolver (spotify_api.py)

The spotipy client is the injected external collaborator: `search` models
`sp.search` (returning the first item, `none` when the result list is
empty) and `audioFeat` models `sp.audio_features([track_id])[0]`.  A raised
`SpotifyException` (network/HTTP failure) is `Except.error spotifyError`.
-/

structure TrackObj where
  id : String
  name : String
  artistName : String
  popularity : Option Int
  releaseDate : Option String
deriving DecidableEq

structure FeaturesObj where
  valence : Option Int
  energy : Option Int
  danceability : Option Int
  tempo : Option Int
  acousticness : Option Int
  instrumentalness : Option Int
deriving DecidableEq

structure TrackInfo where
  track_id : String
  song_title : String
  artist_name : String
  release_year : Option Int
  popularity : Option Int
  valence : Option Int
  energy : Option Int
  danceability : Option Int
  tempo : Option Int
  acousticness : Option Int
  instrumentalness : Option Int
  genre : Option String
deriving DecidableEq

/-- `spotify_api.get_spotify_track`: strict search, title-only fallback,
release-year parse (unguarded `int`, may raise), then the audio-features
call whose `SpotifyException` alone is caught (`except SpotifyException`);
the search calls are not wrapped in any `try`. -/
def get_spotify_track (search : String → Except PyError (Option TrackObj))
    (audioFeat : String → Except PyError (Option FeaturesObj))
    (song_title artist : String) : Except PyError (Option TrackInfo) := do
  let strict ← search ("track:" ++ song_title ++ " artist:" ++ artist)
  let items ← match strict with
    | some t => pure (some t)
    | none => search song_title
  match items with
  | none => pure none
  | some track => do
    let release_year ← extract_release_year track.releaseDate
    let feats ← match audioFeat track.id with
      | Except.ok f => pure f
      | Except.error PyError.spotifyError => pure none
      | Except.error e => throw e
    pure (some {
      track_id := track.id
      song_title := track.name
      artist_name := track.artistName
      release_year := release_year
      popularity := track.popularity
      valence := feats.bind (fun f => f.valence)
      energy := feats.bind (fun f => f.energy)
      danceability := feats.bind (fun f => f.danceability)
      tempo := feats.bind (fun f => f.tempo)
      acousticness := feats.bind (fun f => f.acousticness)
      instrumentalness := feats.bind (fun f => f.instrumentalness)
      genre := none })

/-- `spotify_api.store_spotify_song`: one INSERT into Songs, one into
SpotifyAudioFeatures, returning the new song id. -/
def store_spotify_song (info : TrackInfo) (scraped_song_id : Nat) (st : DbState) :
    Nat × DbState :=
  let sid := nextId (st.songs.map (fun s => s.song_id))
  let fid := nextId (st.feats.map (fun f => f.id))
  (sid,
    { st with
      songs := st.songs ++ [⟨sid, scraped_song_id, info.track_id, info.genre,
        info.popularity, info.release_year⟩]
      feats := st.feats ++ [⟨fid, sid, info.valence, info.energy,
        info.danceability, info.tempo, info.acousticness, info.instrumentalness⟩] })

def insertById (r : ScrapedRow) : List ScrapedRow → List ScrapedRow
  | [] => [r]
  | x :: xs => if r.id ≤ x.id then r :: x :: xs else x :: insertById r xs

/-- `ORDER BY id` over the ScrapedSongs table. -/
def sortById (l : List ScrapedRow) : List ScrapedRow := l.foldr insertById []

def hasSongFor (st : DbState) (scrapedId : Nat) : Bool :=
  st.songs.any (fun s => s.scraped_song_id == scrapedId)

/-- The per-row loop of `populate_spotify_for_scraped_songs`.  The returned
list collects the ids the cursor hands to the Spotify lookup (rows that
passed the `SELECT song_id FROM Songs WHERE scraped_song_id = ?` check,
which runs against the current, evolving state). -/
def populate_spotify_go (search : String → Except PyError (Option TrackObj))
    (audioFeat : String → Except PyError (Option FeaturesObj)) :
    List ScrapedRow → DbState → Except PyError (List Nat × DbState)
  | [], st => Except.ok ([], st)
  | r :: rs, st =>
    if hasSongFor st r.id then
      populate_spotify_go search audioFeat rs st
    else
      match get_spotify_track search audioFeat r.song_title r.artist_name with
      | Except.error e => Except.error e
      | Except.ok none =>
        (populate_spotify_go search audioFeat rs st).map (fun p => (r.id :: p.1, p.2))
      | Except.ok (some info) =>
        (populate_spotify_go search audioFeat rs
            (store_spotify_song info r.id st).2).map (fun p => (r.id :: p.1, p.2))

/-- The rows the SELECT of `populate_spotify_for_scraped_songs` fetches:
`SELECT id, song_title, artist_name FROM ScrapedSongs ORDER BY id` with
`LIMIT ?` appended when a limit is given — the limit is applied to the whole
source table, before any already-processed check. -/
def spotWindow (limit : Option Nat) (st : DbState) : List ScrapedRow :=
  match limit with
  | some q => (sortById st.scraped).take q
  | none => sortById st.scraped

/-- `spotify_api.populate_spotify_for_scraped_songs`. -/
def populate_spotify_for_scraped_songs (limit : Option Nat)
    (search : String → Except PyError (Option TrackObj))
    (audioFeat : String → Except PyError (Option FeaturesObj))
    (st : DbState) : Except PyError (List Nat × DbState) :=
  populate_spotify_go search audioFeat (spotWindow limit st) st

/-- What claim C2 describes: an anti-join cursor — up to `quota` source rows
without a dependent row, ordered by primary key ascending. -/
def specAntiJoinCursor (st : DbState) (quota : Nat) : List Nat :=
  ((sortById (st.scraped.filter (fun r => !hasSongFor st r.id))).take quota).map
    (fun r => r.id)

/-! ## Last.fm popularity (lastfm_api.py) -/

structure LfmTrack where
  listeners : Option String
  playcount : Option String
deriving DecidableEq

/-- `resp.json()`: `track := none` models `"track" not in data`. -/
structure LfmResponse where
  track : Option LfmTrack
deriving DecidableEq

/-- The two `int()` conversions inside the `try` block: a `ValueError` on
either (modelled as `pyIntParse = none`) yields `None`. -/
def lfmParsePair (ls pc : String) : Option (Int × Int) :=
  match pyIntParse ls.toList with
  | none => none
  | some l =>
    match pyIntParse pc.toList with
    | none => none
    | some p => some (l, p)

/-- `if listeners is None or playcount is None: return None`, then the
parse. -/
def lfmCounts (tr : LfmTrack) : Option (Int × Int) :=
  match tr.listeners with
  | none => none
  | some ls =>
    match tr.playcount with
    | none => none
    | some pc => lfmParsePair ls pc

/-- `lastfm_api.get_lastfm_popularity` applied to the decoded response:
`None` when the track is missing, either count is missing, or either count
fails `int()` (the `except ValueError` branch). -/
def get_lastfm_popularity (data : LfmResponse) : Option (Int × Int) :=
  match data.track with
  | none => none
  | some tr => lfmCounts tr

/-- `lastfm_api.store_popularity`: one INSERT into Popularity. -/
def store_popularity (song_id : Nat) (pop : Int × Int) (st : DbState) : DbState :=
  let pid := nextId (st.pops.map (fun p => p.id))
  { st with pops := st.pops ++ [⟨pid, song_id, some pop.1, some pop.2⟩] }

/-- The SELECT of `populate_lastfm`: Songs joined with ScrapedSongs (the
Artists lookup join is inlined — `artist_name` is read off the scraped
row), anti-joined against Popularity (`LEFT JOIN ... WHERE p.id IS NULL`).
The query has no ORDER BY; the model scans the Songs table in storage
order. -/
def lastfmCandidates (st : DbState) : List (Nat × String × String) :=
  st.songs.filterMap (fun s =>
    (st.scraped.find? (fun ss => ss.id == s.scraped_song_id)).map
      (fun ss => (s.song_id, ss.song_title, ss.artist_name)))

def populate_lastfm_go (lookup : String → String → Option (Int × Int)) :
    List (Nat × String × String) → DbState → DbState
  | [], st => st
  | c :: cs, st =>
    match lookup c.2.1 c.2.2 with
    | none => populate_lastfm_go lookup cs st
    | some pop => populate_lastfm_go lookup cs (store_popularity c.1 pop st)

/-- `lastfm_api.populate_lastfm`: anti-join first, then `LIMIT ?`; the
returned list is the song ids the cursor fetched. -/
def populate_lastfm (limit : Nat) (lookup : String → String → Option (Int × Int))
    (st : DbState) : List Nat × DbState :=
  let rows := ((lastfmCandidates st).filter
    (fun c => !st.pops.any (fun p => p.song_id == c.1))).take limit
  (rows.map (fun c => c.1), populate_lastfm_go lookup rows st)

/-! ## Kaggle bulk merge (kaggle_merge.py)

`KaggleRow` carries the columns the update loop reads (speechiness,
liveness and the genre columns are kept by `load_kaggle_audio` but never
used by the merge/update).  A pandas NaN measure is `none`; `pd.isna` on
the merged `valence` column is true both when the left join found no match
and when the matched reference row has a NaN valence.
-/

structure KaggleRow where
  track_name : String
  track_artist : String
  danceability : Option Int
  energy : Option Int
  acousticness : Option Int
  instrumentalness : Option Int
  valence : Option Int
  tempo : Option Int
  track_popularity : Int
deriving DecidableEq

/-- The normalized key columns added by `load_kaggle_audio`. -/
def kagKey (k : KaggleRow) : String × String :=
  (normalize_title k.track_name, normalize_artist k.track_artist)

structure ProjSongRow where
  scraped_id : Nat
  song_title : String
  artist_name : String
  song_id : Nat
deriving DecidableEq

/-- The normalized key columns added by `load_project_songs`. -/
def projKey (s : ProjSongRow) : String × String :=
  (normalize_title s.song_title, normalize_artist s.artist_name)

/-- `kaggle_merge.merge_kaggle_with_db_songs`: a pandas LEFT merge on the
normalized keys — every project song appears once per matching reference
row (once with `none` when nothing matches).  No deduplication happens. -/
def merge_kaggle_with_db_songs (kaggle : List KaggleRow) (songs : List ProjSongRow) :
    List (ProjSongRow × Option KaggleRow) :=
  songs.flatMap (fun s =>
    match kaggle.filter (fun k => kagKey k = projKey s) with
    | [] => [(s, none)]
    | ms => ms.map (fun k => (s, some k)))

/-- One UPDATE of `update_spotify_audiofeatures`: overwrite the six measures
of every SpotifyAudioFeatures row with the given song id. -/
def applyKaggleUpdate (k : KaggleRow) (sid : Nat) (v : Int) (tbl : List FeatRow) :
    List FeatRow :=
  tbl.map (fun fr =>
    if fr.song_id = sid then
      { fr with
        valence := some v
        energy := k.energy
        danceability := k.danceability
        tempo := k.tempo
        acousticness := k.acousticness
        instrumentalness := k.instrumentalness }
    else fr)

/-- One iteration of the update loop: `pd.isna(row["valence"])` (no kaggle
match, or a matched row with NaN valence) means `continue`; otherwise the
UPDATE runs. -/
def kagStep (tbl : List FeatRow) (p : ProjSongRow × Option KaggleRow) : List FeatRow :=
  match p.2 with
  | none => tbl
  | some k =>
    match k.valence with
    | none => tbl
    | some v => applyKaggleUpdate k p.1.song_id v tbl

/-- `kaggle_merge.update_spotify_audiofeatures`: rows with a NaN valence are
skipped (`continue`), every other merged row issues its UPDATE in order. -/
def update_spotify_audiofeatures (merged : List (ProjSongRow × Option KaggleRow))
    (tbl : List FeatRow) : List FeatRow :=
  merged.foldl kagStep tbl

/-! ## Uniqueness constraints of the store (db_setup.create_tables +
cdc_api.ensure_indexes)

Transcription of every uniqueness constraint the DDL declares: PRIMARY KEY
and UNIQUE column sets per table, plus the one unique index added by
`ensure_indexes`. -/

def createTablesUnique : List (String × List String) :=
  [("Artists", ["artist_id"]), ("Artists", ["artist_name"]),
   ("ScrapedSongs", ["id"]),
   ("Songs", ["song_id"]),
   ("SpotifyAudioFeatures", ["id"]),
   ("Popularity", ["id"]),
   ("CDCGroup", ["group_id"]), ("CDCGroup", ["group_name"]),
   ("CDCState", ["state_id"]), ("CDCState", ["state_name"]),
   ("CDCIndicator", ["indicator_id"]), ("CDCIndicator", ["indicator_name"]),
   ("CDCTimePeriod", ["time_id"]), ("CDCTimePeriod", ["time_period_start_date"]),
   ("CDCRaw", ["id"]), ("CDCRaw", ["group_id", "state_id", "indicator_id", "time_id"]),
   ("MentalHealthTrends", ["id"])]

def ensureIndexesUnique : List (String × List String) :=
  [("MentalHealthTrends", ["week"])]

def storeUniqueIndexes : List (String × List String) :=
  createTablesUnique ++ ensureIndexesUnique

def featField (r : FeatRow) (c : String) : Option Int :=
  if c = "id" then some (Int.ofNat r.id)
  else if c = "song_id" then some (Int.ofNat r.song_id)
  else if c = "valence" then r.valence
  else if c = "energy" then r.energy
  else if c = "danceability" then r.danceability
  else if c = "tempo" then r.tempo
  else if c = "acousticness" then r.acousticness
  else if c = "instrumentalness" then r.instrumentalness
  else none

/-- Whether the store accepts an INSERT of `r` into SpotifyAudioFeatures:
no declared uniqueness constraint on that table may be violated. -/
def featInsertAccepted (tbl : List FeatRow) (r : FeatRow) : Bool :=
  storeUniqueIndexes.all (fun idx =>
    idx.1 != "SpotifyAudioFeatures" ||
      tbl.all (fun r' => !(idx.2.all (fun c => featField r' c == featField r c))))

/-- A character the finished normalizer output may contain. -/
def allowedC (c : Char) : Bool := okChar c || c == ' '

/-- AudioFeatures rows carrying a given song id. -/
def featRowsFor (sid : Nat) (tbl : List FeatRow) : List FeatRow :=
  tbl.filter (fun fr => fr.song_id == sid)

/-! ## Concrete fixtures used by counterexamples and witnesses -/

def csSong : ProjSongRow := ⟨1, "Shape of You", "Ed Sheeran", 10⟩

def csKagPop95 : KaggleRow :=
  ⟨"Shape Of You", "Ed Sheeran", some 70, some 65, some 8, some 0, some 9, some 96, 95⟩

def csKagPop90 : KaggleRow :=
  ⟨"Shape of You (Acoustic)", "Ed Sheeran", some 40, some 30, some 80, some 1,
    some 1, some 90, 90⟩

def csKagNull : KaggleRow :=
  ⟨"Shape Of You", "Ed Sheeran", some 40, some 30, some 80, some 1, none, some 90, 50⟩

def csFeats : List FeatRow := [⟨1, 10, none, none, none, none, none, none⟩]

def c2State : DbState :=
  ⟨[⟨1, "a", "b"⟩, ⟨2, "c", "d"⟩], [⟨1, 1, "X", none, none, none⟩], [], []⟩

def c2Search : String → Except PyError (Option TrackObj) :=
  fun _ => Except.ok (some ⟨"T", "n", "ar", none, none⟩)

def c2Af : String → Except PyError (Option FeaturesObj) :=
  fun _ => Except.ok none

def c5State : DbState := ⟨[⟨1, "t1", "a1"⟩, ⟨2, "t2", "a2"⟩], [], [], []⟩

def c5Search : String → Except PyError (Option TrackObj) :=
  fun q =>
    if q = "track:t1 artist:a1" then Except.error PyError.spotifyError
    else Except.ok (some ⟨"T", "n", "ar", none, none⟩)

def c5Af : String → Except PyError (Option FeaturesObj) :=
  fun _ => Except.error PyError.spotifyError

/-! ## Sanity checks on the embedding -/

example : normalize_title "Blinding Lights (Remix)" = "blinding lights" := by decide
example : normalize_title "blinding lights" = "blinding lights" := by decide
example : normalize_artist "Artist A feat. Artist B" = "artist a" := by decide
example : normalize_artist "Band & Friends" = "band" := by decide
example : normalize_title "Song - From The Movie" = "song" := by decide
example : normalize_artist "Ed Sheeran" = "ed sheeran" := by decide
example : extract_release_year (some "2021-05-01") = Except.ok (some 2021) := by decide
example : specReleaseYear (some "2021-05-01") = some 2021 := by decide
example : extract_release_year (some "n/a") = Except.error PyError.valueError := by decide
example : extract_release_year none = Except.ok none := by decide
example : extract_release_year (some "20210501") = Except.ok (some 20210501) := by decide
example : specReleaseYear (some "20210501") = some 2021 := by decide

/-! ## Lemmas: shape of normalizer output -/

theorem map_fix {f : Char → Char} :
    ∀ (l : List Char), (∀ c ∈ l, f c = c) → l.map f = l
  | [], _ => rfl
  | c :: cs, h => by
    rw [List.map_cons, h c (List.mem_cons_self c cs),
      map_fix cs (fun d hd => h d (List.mem_cons_of_mem c hd))]

theorem allowedC_cases {c : Char} (h : allowedC c = true) :
    ('a' ≤ c ∧ c ≤ 'z') ∨ ('0' ≤ c ∧ c ≤ '9') ∨ c = ' ' := by
  simp only [allowedC, okChar, Bool.or_eq_true, Bool.and_eq_true,
    decide_eq_true_eq, beq_iff_eq] at h
  tauto

theorem okChar_not_ws {c : Char} (h : okChar c = true) : isWs c = false := by
  have k : ∀ x : Char, okChar x = false → (c == x) = false := by
    intro x hx
    rw [beq_eq_false_iff_ne]
    rintro rfl
    rw [h] at hx
    cases hx
  unfold isWs
  rw [k ' ' (by decide), k '\t' (by decide), k '\n' (by decide), k '\r' (by decide),
    k '\x0b' (by decide), k '\x0c' (by decide)]
  rfl

theorem allowedC_ws {c : Char} (h : allowedC c = true) (hw : isWs c = true) : c = ' ' := by
  rcases allowedC_cases h with hc | hc | hc
  · have := okChar_not_ws (c := c) (by simp [okChar, hc.1, hc.2])
    rw [this] at hw; cases hw
  · have := okChar_not_ws (c := c) (by simp [okChar, hc.1, hc.2])
    rw [this] at hw; cases hw
  · exact hc

theorem asciiLower_fix {c : Char} (h : allowedC c = true) : asciiLower c = c := by
  unfold asciiLower
  rw [if_neg]
  intro hcond
  rw [Bool.and_eq_true, decide_eq_true_eq, decide_eq_true_eq] at hcond
  rcases allowedC_cases h with hc | hc | hc
  · exact absurd (le_trans hc.1 hcond.2) (by decide)
  · exact absurd (le_trans hcond.1 hc.2) (by decide)
  · rw [hc] at hcond
    exact absurd hcond.1 (by decide)

theorem keepAllowed_fix {c : Char} (h : allowedC c = true) : keepAllowed c = c := by
  unfold keepAllowed
  rcases allowedC_cases h with hc | hc | hc
  · rw [if_pos]; simp [okChar, hc.1, hc.2]
  · rw [if_pos]; simp [okChar, hc.1, hc.2]
  · rw [if_pos]; rw [hc]; decide

theorem splitAtFirst_eq_none {t : Char} :
    ∀ {l : List Char}, (∀ c ∈ l, c ≠ t) → splitAtFirst t l = none
  | [], _ => rfl
  | c :: cs, h => by
    unfold splitAtFirst
    rw [if_neg (h c (List.mem_cons_self c cs)),
      splitAtFirst_eq_none (fun d hd => h d (List.mem_cons_of_mem c hd))]

theorem removeParens_fix {l : List Char} (h : ∀ c ∈ l, c ≠ '(') :
    removeParens l = l := by
  unfold removeParens
  cases hl : l.length with
  | zero => rfl
  | succ n =>
    unfold removeParensF
    rw [splitAtFirst_eq_none h]

theorem dashTail_false :
    ∀ {l : List Char}, (∀ c ∈ l, c ≠ '-') → dashTail l = false
  | [], _ => rfl
  | c :: cs, h => by
    simp only [dashTail]
    by_cases hc : isWs c = true
    · rw [if_pos hc]
      exact dashTail_false (fun d hd => h d (List.mem_cons_of_mem c hd))
    · rw [if_neg hc]
      have hne : (c == '-') = false := by
        rw [beq_eq_false_iff_ne]
        exact h c (List.mem_cons_self c cs)
      rw [hne, Bool.false_and]

theorem takeUntilDash_fix :
    ∀ {l : List Char}, (∀ c ∈ l, c ≠ '-') → takeUntilDash l = l
  | [], _ => rfl
  | c :: cs, h => by
    have htl : ∀ d ∈ cs, d ≠ '-' := fun d hd => h d (List.mem_cons_of_mem c hd)
    have hcond : ¬(matchDashAt (c :: cs) = true) := by
      show ¬((isWs c && dashTail cs) = true)
      rw [dashTail_false htl]
      simp
    show (if matchDashAt (c :: cs) = true then [] else c :: takeUntilDash cs) = c :: cs
    rw [if_neg hcond, takeUntilDash_fix htl]

theorem takeUntilMark_fix {m : List Char → Bool} :
    ∀ {l : List Char}, noMarkB m l = true → takeUntilMark m l = l
  | [], _ => rfl
  | c :: cs, h => by
    simp only [noMarkB, Bool.and_eq_true, Bool.not_eq_true'] at h
    simp only [takeUntilMark]
    rw [if_neg (by rw [h.1]; intro hc; cases hc), takeUntilMark_fix h.2]

theorem stripOther_fix {l : List Char} (h : ∀ c ∈ l, allowedC c = true) :
    stripOther l = l :=
  map_fix l (fun c hc => keepAllowed_fix (h c hc))

theorem collapseAux_true_of_head {l : List Char} (h : headIsWs l = false) :
    collapseAux true l = collapseAux false l := by
  cases l with
  | nil => rfl
  | cons c cs =>
    have hw : isWs c = false := h
    have hne : ¬(isWs c = true) := by simp [hw]
    show (if isWs c = true then collapseAux true cs else c :: collapseAux false cs) =
      (if isWs c = true then ' ' :: collapseAux true cs else c :: collapseAux false cs)
    rw [if_neg hne, if_neg hne]

/-- Splitting the `goodTail` condition on a two-element-or-more list. -/
theorem goodTail_cons₂ {c d : Char} {ds : List Char}
    (h : goodTail (c :: d :: ds) = true) :
    (if c = ' ' then okChar d else okChar c) = true ∧ goodTail (d :: ds) = true := by
  have h' : ((if c = ' ' then okChar d else okChar c) && goodTail (d :: ds)) = true := h
  simp only [Bool.and_eq_true] at h'
  exact h'

theorem goodTail_collapse :
    ∀ {l : List Char}, goodTail l = true → collapseAux false l = l
  | [], _ => rfl
  | [c], h => by
    have hok : okChar c = true := h
    have hne : ¬(isWs c = true) := by simp [okChar_not_ws hok]
    show (if isWs c = true then ' ' :: collapseAux true [] else c :: collapseAux false []) = [c]
    rw [if_neg hne]
    rfl
  | c :: d :: ds, h => by
    obtain ⟨h1, h2⟩ := goodTail_cons₂ h
    by_cases hc : c = ' '
    · subst hc
      rw [if_pos rfl] at h1
      show (if isWs ' ' = true then ' ' :: collapseAux true (d :: ds)
        else ' ' :: collapseAux false (d :: ds)) = ' ' :: d :: ds
      rw [if_pos (by decide),
        collapseAux_true_of_head (show headIsWs (d :: ds) = false from okChar_not_ws h1),
        goodTail_collapse h2]
    · rw [if_neg hc] at h1
      have hne : ¬(isWs c = true) := by simp [okChar_not_ws h1]
      show (if isWs c = true then ' ' :: collapseAux true (d :: ds)
        else c :: collapseAux false (d :: ds)) = c :: d :: ds
      rw [if_neg hne, goodTail_collapse h2]

theorem goodTail_dropTrailing :
    ∀ {l : List Char}, goodTail l = true → dropTrailingWs l = l
  | [], _ => rfl
  | [c], h => by
    have hok : okChar c = true := h
    show (if (isWs c && (dropTrailingWs []).isEmpty) = true then []
      else c :: dropTrailingWs []) = [c]
    rw [if_neg (by simp [okChar_not_ws hok])]
    rfl
  | c :: d :: ds, h => by
    obtain ⟨h1, h2⟩ := goodTail_cons₂ h
    have hr : dropTrailingWs (d :: ds) = d :: ds := goodTail_dropTrailing h2
    have hcond : ¬((isWs c && (dropTrailingWs (d :: ds)).isEmpty) = true) := by
      rw [hr]; simp
    show (if (isWs c && (dropTrailingWs (d :: ds)).isEmpty) = true then []
      else c :: dropTrailingWs (d :: ds)) = c :: d :: ds
    rw [if_neg hcond, hr]

theorem goodTail_head {c : Char} {cs : List Char}
    (h : goodTail (c :: cs) = true) (hc : c ≠ ' ') : okChar c = true := by
  cases cs with
  | nil => exact h
  | cons d ds =>
    have h1 := (goodTail_cons₂ h).1
    rw [if_neg hc] at h1
    exact h1

theorem canonB_split {l : List Char} (h : canonB l = true) :
    headIsSpace l = false ∧ goodTail l = true := by
  have h' : ((!headIsSpace l) && goodTail l) = true := h
  simp only [Bool.and_eq_true, Bool.not_eq_true'] at h'
  exact h'

theorem canonB_stripEnds {l : List Char} (h : canonB l = true) : stripEnds l = l := by
  obtain ⟨h1, h2⟩ := canonB_split h
  show dropTrailingWs (l.dropWhile isWs) = l
  have hdw : l.dropWhile isWs = l := by
    cases l with
    | nil => rfl
    | cons c cs =>
      have hcs : c ≠ ' ' := by
        have hb : (c == ' ') = false := h1
        rw [beq_eq_false_iff_ne] at hb
        exact hb
      have hok := goodTail_head h2 hcs
      exact List.dropWhile_cons_of_neg (by rw [okChar_not_ws hok]; intro hx; cases hx)
  rw [hdw, goodTail_dropTrailing h2]

theorem stripOther_chars {l : List Char} :
    ∀ c ∈ stripOther l, okChar c = true ∨ isWs c = true := by
  intro c hc
  rcases List.mem_map.mp hc with ⟨d, _, rfl⟩
  unfold keepAllowed
  by_cases h : (okChar d || isWs d) = true
  · rw [if_pos h]
    simp only [Bool.or_eq_true] at h
    exact h
  · rw [if_neg h]
    right
    decide

theorem collapseAux_true_headIsWs :
    ∀ (l : List Char), headIsWs (collapseAux true l) = false
  | [] => rfl
  | c :: cs => by
    by_cases hw : isWs c = true
    · have he : collapseAux true (c :: cs) = collapseAux true cs := by
        show (if isWs c = true then collapseAux true cs else c :: collapseAux false cs) = _
        rw [if_pos hw]
      rw [he]
      exact collapseAux_true_headIsWs cs
    · have he : collapseAux true (c :: cs) = c :: collapseAux false cs := by
        show (if isWs c = true then collapseAux true cs else c :: collapseAux false cs) = _
        rw [if_neg hw]
      rw [he]
      show isWs c = false
      rw [Bool.not_eq_true] at hw
      exact hw

theorem spacedOk_tail : ∀ {c : Char} {cs : List Char},
    spacedOk (c :: cs) = true → spacedOk cs = true := by
  intro c cs h
  cases cs with
  | nil => rfl
  | cons d ds =>
    have h' : (((okChar c || c == ' ') && !(decide (c = ' ') && decide (d = ' '))) &&
        spacedOk (d :: ds)) = true := h
    simp only [Bool.and_eq_true] at h'
    exact h'.2

theorem spacedOk_head {c : Char} {cs : List Char}
    (h : spacedOk (c :: cs) = true) : (okChar c || c == ' ') = true := by
  cases cs with
  | nil => exact h
  | cons d ds =>
    have h' : (((okChar c || c == ' ') && !(decide (c = ' ') && decide (d = ' '))) &&
        spacedOk (d :: ds)) = true := h
    simp only [Bool.and_eq_true] at h'
    exact h'.1.1

theorem spacedOk_cons_nonspace {c : Char} {cs : List Char}
    (hok : okChar c = true) (hcs : spacedOk cs = true) : spacedOk (c :: cs) = true := by
  have hcne : c ≠ ' ' := by
    rintro rfl
    exact absurd hok (by decide)
  cases cs with
  | nil =>
    show (okChar c || c == ' ') = true
    rw [hok, Bool.true_or]
  | cons d ds =>
    show (((okChar c || c == ' ') && !(decide (c = ' ') && decide (d = ' '))) &&
      spacedOk (d :: ds)) = true
    rw [hok, Bool.true_or, decide_eq_false hcne, Bool.false_and, Bool.not_false,
      Bool.true_and, Bool.true_and, hcs]

theorem spacedOk_cons_space {cs : List Char}
    (hcs : spacedOk cs = true) (hh : headIsWs cs = false) : spacedOk (' ' :: cs) = true := by
  cases cs with
  | nil => decide
  | cons d ds =>
    have hdw : isWs d = false := hh
    have hdne : d ≠ ' ' := by
      rintro rfl
      exact absurd hdw (by decide)
    show (((okChar ' ' || ' ' == ' ') && !(decide (' ' = ' ') && decide (d = ' '))) &&
      spacedOk (d :: ds)) = true
    rw [decide_eq_false hdne, Bool.and_false, Bool.not_false, hcs]
    decide

theorem collapse_spaced :
    ∀ {l : List Char} (prev : Bool), (∀ c ∈ l, okChar c = true ∨ isWs c = true) →
      spacedOk (collapseAux prev l) = true
  | [], prev, _ => by cases prev <;> rfl
  | c :: cs, prev, h => by
    have htl : ∀ d ∈ cs, okChar d = true ∨ isWs d = true :=
      fun d hd => h d (List.mem_cons_of_mem c hd)
    by_cases hw : isWs c = true
    · cases prev with
      | true =>
        have he : collapseAux true (c :: cs) = collapseAux true cs := by
          show (if isWs c = true then collapseAux true cs else c :: collapseAux false cs) = _
          rw [if_pos hw]
        rw [he]
        exact collapse_spaced true htl
      | false =>
        have he : collapseAux false (c :: cs) = ' ' :: collapseAux true cs := by
          show (if isWs c = true then ' ' :: collapseAux true cs
            else c :: collapseAux false cs) = _
          rw [if_pos hw]
        rw [he]
        exact spacedOk_cons_space (collapse_spaced true htl) (collapseAux_true_headIsWs cs)
    · have hok : okChar c = true := by
        rcases h c (List.mem_cons_self c cs) with hk | hk
        · exact hk
        · exact absurd hk hw
      cases prev with
      | true =>
        have he : collapseAux true (c :: cs) = c :: collapseAux false cs := by
          show (if isWs c = true then collapseAux true cs else c :: collapseAux false cs) = _
          rw [if_neg hw]
        rw [he]
        exact spacedOk_cons_nonspace hok (collapse_spaced false htl)
      | false =>
        have he : collapseAux false (c :: cs) = c :: collapseAux false cs := by
          show (if isWs c = true then ' ' :: collapseAux true cs
            else c :: collapseAux false cs) = _
          rw [if_neg hw]
        rw [he]
        exact spacedOk_cons_nonspace hok (collapse_spaced false htl)

theorem spacedOk_dropWhile :
    ∀ {l : List Char}, spacedOk l = true → spacedOk (l.dropWhile isWs) = true
  | [], _ => rfl
  | c :: cs, h => by
    by_cases hw : isWs c = true
    · rw [List.dropWhile_cons_of_pos hw]
      exact spacedOk_dropWhile (spacedOk_tail h)
    · rw [List.dropWhile_cons_of_neg hw]
      exact h

theorem dropWhile_headIsWs :
    ∀ (l : List Char), headIsWs (l.dropWhile isWs) = false
  | [] => rfl
  | c :: cs => by
    by_cases hw : isWs c = true
    · rw [List.dropWhile_cons_of_pos hw]
      exact dropWhile_headIsWs cs
    · rw [List.dropWhile_cons_of_neg hw]
      show isWs c = false
      rw [Bool.not_eq_true] at hw
      exact hw

theorem dropTrailingWs_cons_shape {cs : List Char} {d : Char} {r' : List Char}
    (h : dropTrailingWs cs = d :: r') : ∃ cs', cs = d :: cs' ∧ r' = dropTrailingWs cs' := by
  cases cs with
  | nil => cases h
  | cons x xs =>
    have he : dropTrailingWs (x :: xs) =
        (if (isWs x && (dropTrailingWs xs).isEmpty) = true then []
         else x :: dropTrailingWs xs) := rfl
    rw [he] at h
    by_cases hc : (isWs x && (dropTrailingWs xs).isEmpty) = true
    · rw [if_pos hc] at h
      cases h
    · rw [if_neg hc] at h
      injection h with h1 h2
      exact ⟨xs, by rw [h1], h2.symm⟩

theorem spacedOk_dropTrailing :
    ∀ {l : List Char}, spacedOk l = true → goodTail (dropTrailingWs l) = true
  | [], _ => rfl
  | c :: cs, h => by
    have ih := spacedOk_dropTrailing (spacedOk_tail h)
    have he : dropTrailingWs (c :: cs) =
        (if (isWs c && (dropTrailingWs cs).isEmpty) = true then []
         else c :: dropTrailingWs cs) := rfl
    rw [he]
    by_cases hcr : (isWs c && (dropTrailingWs cs).isEmpty) = true
    · rw [if_pos hcr]
      rfl
    · rw [if_neg hcr]
      cases hr : dropTrailingWs cs with
      | nil =>
        have hwc : isWs c = false := by
          rw [hr] at hcr
          simp only [List.isEmpty_nil, Bool.and_true] at hcr
          rw [Bool.not_eq_true] at hcr
          exact hcr
        have hok : okChar c = true := by
          rcases Bool.or_eq_true _ _ ▸ spacedOk_head h with hk | hk
          · exact hk
          · exfalso
            have : c = ' ' := by
              have := hk
              rw [beq_iff_eq] at this
              exact this
            rw [this] at hwc
            cases hwc
        exact hok
      | cons d r' =>
        obtain ⟨cs', hcs', hr'⟩ := dropTrailingWs_cons_shape hr
        show ((if c = ' ' then okChar d else okChar c) && goodTail (d :: r')) = true
        rw [hr] at ih
        have hgd : goodTail (d :: r') = true := ih
        by_cases hc : c = ' '
        · subst hcs'
          have hdne : d ≠ ' ' := by
            subst hc
            intro hd
            cases r'' : cs' with
            | nil =>
              subst r''
              rw [hd] at h
              exact absurd h (by decide)
            | cons y ys =>
              subst r''
              have hsp : (((okChar ' ' || ' ' == ' ') &&
                  !(decide (' ' = ' ') && decide (d = ' '))) &&
                  spacedOk (d :: y :: ys)) = true := h
              simp only [Bool.and_eq_true] at hsp
              rw [hd] at hsp
              simp at hsp
          have hokd : okChar d = true := by
            have hd := spacedOk_head (spacedOk_tail h)
            rcases Bool.or_eq_true _ _ ▸ hd with hk | hk
            · exact hk
            · exfalso
              rw [beq_iff_eq] at hk
              exact hdne hk
          rw [if_pos hc, hokd, hgd]
          rfl
        · have hok : okChar c = true := by
            rcases Bool.or_eq_true _ _ ▸ spacedOk_head h with hk | hk
            · exact hk
            · exfalso
              rw [beq_iff_eq] at hk
              exact hc hk
          rw [if_neg hc, hok, hgd]
          rfl

theorem headIsSpace_dropTrailing {l : List Char} (h : headIsWs l = false) :
    headIsSpace (dropTrailingWs l) = false := by
  cases l with
  | nil => rfl
  | cons c cs =>
    have hwc : isWs c = false := h
    have he : dropTrailingWs (c :: cs) =
        (if (isWs c && (dropTrailingWs cs).isEmpty) = true then []
         else c :: dropTrailingWs cs) := rfl
    rw [he]
    by_cases hcr : (isWs c && (dropTrailingWs cs).isEmpty) = true
    · rw [if_pos hcr]
      rfl
    · rw [if_neg hcr]
      show (c == ' ') = false
      rw [beq_eq_false_iff_ne]
      rintro rfl
      exact absurd hwc (by decide)

/-- Every output of the shared normalizer tail is canonical: only
`[a-z0-9 ]` characters, no double spaces, trimmed. -/
theorem canonB_finish (l : List Char) : canonB (finishStage l) = true := by
  have h2 : spacedOk (collapseWs (stripOther l)) = true :=
    collapse_spaced false (fun c hc => stripOther_chars c hc)
  have h3 : spacedOk ((collapseWs (stripOther l)).dropWhile isWs) = true :=
    spacedOk_dropWhile h2
  have h4 : headIsWs ((collapseWs (stripOther l)).dropWhile isWs) = false :=
    dropWhile_headIsWs _
  have h5 := spacedOk_dropTrailing h3
  have h6 := headIsSpace_dropTrailing h4
  show (!headIsSpace (dropTrailingWs ((collapseWs (stripOther l)).dropWhile isWs)) &&
    goodTail (dropTrailingWs ((collapseWs (stripOther l)).dropWhile isWs))) = true
  rw [h5, h6]
  rfl

theorem goodTail_chars :
    ∀ {l : List Char}, goodTail l = true → ∀ c ∈ l, allowedC c = true
  | [], _, c, hc => absurd hc (List.not_mem_nil c)
  | [c], h, d, hd => by
    have : d = c := by simpa using hd
    subst this
    have hok : okChar d = true := h
    simp [allowedC, hok]
  | c :: d :: ds, h, e, he => by
    obtain ⟨h1, h2⟩ := goodTail_cons₂ h
    rcases List.mem_cons.mp he with rfl | he'
    · by_cases hc : e = ' '
      · rw [hc]; decide
      · rw [if_neg hc] at h1
        simp [allowedC, h1]
    · exact goodTail_chars h2 e he'

theorem allowedC_ne_of {c x : Char} (h : allowedC c = true) (hx : allowedC x = false) :
    c ≠ x := by
  rintro rfl
  rw [h] at hx
  cases hx

/-- A canonical, marker-free string is a fixed point of the title
normalizer. -/
theorem normalize_title_fixpoint {u : List Char}
    (hc : canonB u = true) (hm : noMarkB matchTitleMarkAt u = true) :
    normalize_title (String.mk u) = String.mk u := by
  obtain ⟨_, h2⟩ := canonB_split hc
  have hchars := goodTail_chars h2
  have hl : lowerStage u = u := map_fix u (fun c hcm => asciiLower_fix (hchars c hcm))
  have hp : removeParens u = u :=
    removeParens_fix (fun c hcm => allowedC_ne_of (hchars c hcm) (by decide))
  have hd : takeUntilDash u = u :=
    takeUntilDash_fix (fun c hcm => allowedC_ne_of (hchars c hcm) (by decide))
  have hmk : takeUntilMark matchTitleMarkAt u = u := takeUntilMark_fix hm
  have hs : stripOther u = u := stripOther_fix hchars
  have hcol : collapseWs u = u := goodTail_collapse h2
  have hse : stripEnds u = u := canonB_stripEnds hc
  show String.mk (finishStage (takeUntilMark matchTitleMarkAt
    (takeUntilDash (removeParens (lowerStage u))))) = String.mk u
  rw [hl, hp, hd, hmk]
  show String.mk (stripEnds (collapseWs (stripOther u))) = String.mk u
  rw [hs, hcol, hse]

/-- C7 counterexample: the normalizers are not idempotent.  In
`"a -featuring b"` the `-` shields `featuring` from the truncation pass;
the punctuation strip then turns `-` into a space, so the first pass yields
`"a featuring b"`, which a second pass truncates to `"a"`. -/
theorem normalize_idempotent_counterexample :
    normalize_title (normalize_title "a -featuring b") ≠
      normalize_title "a -featuring b" ∧
    normalize_artist (normalize_artist "a -featuring b") ≠
      normalize_artist "a -featuring b" := by
  exact ⟨by decide, by decide⟩

/-- A canonical, marker-free string is a fixed point of the artist
normalizer. -/
theorem normalize_artist_fixpoint {u : List Char}
    (hc : canonB u = true) (hm : noMarkB matchArtistMarkAt u = true) :
    normalize_artist (String.mk u) = String.mk u := by
  obtain ⟨_, h2⟩ := canonB_split hc
  have hchars := goodTail_chars h2
  have hl : lowerStage u = u := map_fix u (fun c hcm => asciiLower_fix (hchars c hcm))
  have hmk : takeUntilMark matchArtistMarkAt u = u := takeUntilMark_fix hm
  have hs : stripOther u = u := stripOther_fix hchars
  have hcol : collapseWs u = u := goodTail_collapse h2
  have hse : stripEnds u = u := canonB_stripEnds hc
  show String.mk (finishStage (takeUntilMark matchArtistMarkAt (lowerStage u))) =
    String.mk u
  rw [hl, hmk]
  show String.mk (stripEnds (collapseWs (stripOther u))) = String.mk u
  rw [hs, hcol, hse]

/-- C7 (amended): `normalize(normalize(x)) = normalize(x)` holds for every
string whose first normalization contains no truncation marker (the general
statement fails, see the counterexample: a marker can surface after the
punctuation strip). -/
theorem normalize_idempotent_of_marker_free (x y : String)
    (ht : noMarkB matchTitleMarkAt (normalize_title x).toList = true)
    (ha : noMarkB matchArtistMarkAt (normalize_artist y).toList = true) :
    normalize_title (normalize_title x) = normalize_title x ∧
    normalize_artist (normalize_artist y) = normalize_artist y := by
  constructor
  · have hc : canonB (normalize_title x).toList = true := canonB_finish _
    exact normalize_title_fixpoint hc ht
  · have hc : canonB (normalize_artist y).toList = true := canonB_finish _
    exact normalize_artist_fixpoint hc ha

theorem normalize_idempotent_of_marker_free_witness :
    normalize_title (normalize_title "Blinding Lights (Remix)") =
      normalize_title "Blinding Lights (Remix)" ∧
    normalize_artist (normalize_artist "Artist A feat. Artist B") =
      normalize_artist "Artist A feat. Artist B" :=
  normalize_idempotent_of_marker_free "Blinding Lights (Remix)"
    "Artist A feat. Artist B" (by decide) (by decide)

/-- C9 counterexample: the artist normalizer does not remove parenthesized
substrings — it keeps their contents (the claim-side pipeline, which does
remove them, disagrees on `"x (y)"`). -/
theorem artist_normalizer_counterexample :
    specArtistClaim "x (y)" = "x" ∧ normalize_artist "x (y)" = "x y" ∧
    normalize_artist "x (y)" ≠ specArtistClaim "x (y)" := by
  exact ⟨by decide, by decide, by decide⟩

/-- C9 (amended): the title normalizer performs exactly the spec's stage
list (lower-case, parenthesis removal, `" - "`/feature-marker truncation,
character strip, whitespace collapse, trim); both normalizers produce
canonical `[a-z0-9 ]` output; but the artist normalizer neither removes
parenthesized substrings (their contents are kept, the delimiters become
spaces) nor truncates at `" - "`. -/
theorem normalizer_stage_structure :
    (∀ s : String, normalize_title s = specTitleClaim s) ∧
    (∀ s : String, canonB (normalize_title s).toList = true ∧
      canonB (normalize_artist s).toList = true) ∧
    normalize_artist "x (y)" = "x y" ∧
    normalize_artist "a - b" = "a b" ∧
    normalize_title "x (y)" = "x" ∧
    normalize_title "a - b" = "a" :=
  ⟨fun _ => rfl, fun _ => ⟨canonB_finish _, canonB_finish _⟩,
    by decide, by decide, by decide, by decide⟩

/-! ## Claim C4: release-year parsing -/

theorem isDigit_not_ws {c : Char} (h : c.isDigit = true) : isWs c = false := by
  have k : ∀ x : Char, x.isDigit = false → (c == x) = false := by
    intro x hx
    rw [beq_eq_false_iff_ne]
    rintro rfl
    rw [h] at hx
    cases hx
  unfold isWs
  rw [k ' ' (by decide), k '\t' (by decide), k '\n' (by decide), k '\r' (by decide),
    k '\x0b' (by decide), k '\x0c' (by decide)]
  rfl

theorem isDigit_ne {c x : Char} (h : c.isDigit = true) (hx : x.isDigit = false) :
    c ≠ x := by
  rintro rfl
  rw [h] at hx
  cases hx

theorem dropTrailingWs_fix_of_no_ws :
    ∀ {l : List Char}, (∀ c ∈ l, isWs c = false) → dropTrailingWs l = l
  | [], _ => rfl
  | c :: cs, h => by
    have hr := dropTrailingWs_fix_of_no_ws (fun d hd => h d (List.mem_cons_of_mem c hd))
    have hcond : ¬((isWs c && (dropTrailingWs cs).isEmpty) = true) := by
      rw [h c (List.mem_cons_self c cs)]
      simp
    show (if (isWs c && (dropTrailingWs cs).isEmpty) = true then []
      else c :: dropTrailingWs cs) = c :: cs
    rw [if_neg hcond, hr]

theorem stripEnds_fix_of_no_ws {l : List Char} (h : ∀ c ∈ l, isWs c = false) :
    stripEnds l = l := by
  have hdw : l.dropWhile isWs = l := by
    cases l with
    | nil => rfl
    | cons c cs =>
      exact List.dropWhile_cons_of_neg
        (by rw [h c (List.mem_cons_self c cs)]; intro hx; cases hx)
  show dropTrailingWs (l.dropWhile isWs) = l
  rw [hdw]
  exact dropTrailingWs_fix_of_no_ws h

/-- C4 counterexample: on the malformed date `"n/a"` the resolver raises
`ValueError` (the claim mandates a null year and no error). -/
theorem release_year_counterexample :
    extract_release_year (some "n/a") = Except.error PyError.valueError ∧
    specReleaseYear (some "n/a") = none := by
  exact ⟨by decide, by decide⟩

/-- C4 (amended): the resolver stores `int()` of the full segment before the
first `'-'` (null only when the date string is missing or empty).  On dates
whose first segment is exactly four digits this agrees with the spec's
first-4-digits rule, but a non-numeric segment raises `ValueError` instead
of yielding null. -/
theorem release_year_parse_characterization :
    extract_release_year none = Except.ok none ∧
    extract_release_year (some "") = Except.ok none ∧
    (∀ (a b c d : Char) (s : String), pySplitHead '-' s.toList = [a, b, c, d] →
      (a.isDigit && b.isDigit && c.isDigit && d.isDigit) = true →
      extract_release_year (some s) = Except.ok (specReleaseYear (some s))) ∧
    (∀ s : String, s ≠ "" → pyIntParse (pySplitHead '-' s.toList) = none →
      extract_release_year (some s) = Except.error PyError.valueError) := by
  refine ⟨rfl, rfl, ?_, ?_⟩
  · intro a b c d s hseg hdig
    simp only [Bool.and_eq_true] at hdig
    obtain ⟨⟨⟨ha, hb⟩, hc⟩, hd⟩ := hdig
    have hsl : s.toList = [a, b, c, d] ++ s.toList.dropWhile (fun x => x != '-') := by
      conv_lhs => rw [← List.takeWhile_append_dropWhile (p := fun x => x != '-')
        (l := s.toList)]
      rw [show s.toList.takeWhile (fun x => x != '-') = pySplitHead '-' s.toList from rfl,
        hseg]
    have hne : s ≠ "" := by
      intro h0
      rw [h0] at hseg
      simp [pySplitHead] at hseg
    have hnws : ∀ x ∈ [a, b, c, d], isWs x = false := by
      intro x hx
      simp only [List.mem_cons, List.not_mem_nil, or_false] at hx
      rcases hx with rfl | rfl | rfl | rfl
      · exact isDigit_not_ws ha
      · exact isDigit_not_ws hb
      · exact isDigit_not_ws hc
      · exact isDigit_not_ws hd
    have hstrip : stripEnds [a, b, c, d] = [a, b, c, d] := stripEnds_fix_of_no_ws hnws
    have hd4 : digitsToNat? [a, b, c, d] = some (1000 * (a.toNat - 48) +
        100 * (b.toNat - 48) + 10 * (c.toNat - 48) + (d.toNat - 48)) := by
      unfold digitsToNat?
      rw [if_pos (by simp [ha, hb, hc, hd])]
      simp only [List.foldl_cons, List.foldl_nil]
      congr 1
      omega
    have hparse : pyIntParse [a, b, c, d] = some ((1000 * (a.toNat - 48) +
        100 * (b.toNat - 48) + 10 * (c.toNat - 48) + (d.toNat - 48) : Nat) : Int) := by
      unfold pyIntParse
      rw [hstrip]
      show (if a = '+' then (digitsToNat? [b, c, d]).map (fun n => (n : Int))
        else if a = '-' then (digitsToNat? [b, c, d]).map (fun n => -(n : Int))
        else (digitsToNat? (a :: [b, c, d])).map (fun n => (n : Int))) = _
      rw [if_neg (isDigit_ne ha (by decide)), if_neg (isDigit_ne ha (by decide)), hd4]
      rfl
    have hspec : specReleaseYear (some s) = some ((1000 * (a.toNat - 48) +
        100 * (b.toNat - 48) + 10 * (c.toNat - 48) + (d.toNat - 48) : Nat) : Int) := by
      show (match s.toList with
        | a :: b :: c :: d :: _ =>
          if a.isDigit && b.isDigit && c.isDigit && d.isDigit then
            some ((1000 * (a.toNat - 48) + 100 * (b.toNat - 48) +
              10 * (c.toNat - 48) + (d.toNat - 48) : Nat) : Int)
          else none
        | _ => none) = _
      rw [hsl]
      show (if a.isDigit && b.isDigit && c.isDigit && d.isDigit then
          some ((1000 * (a.toNat - 48) + 100 * (b.toNat - 48) +
            10 * (c.toNat - 48) + (d.toNat - 48) : Nat) : Int)
        else none) = _
      rw [if_pos (by simp [ha, hb, hc, hd])]
    show (if s = "" then Except.ok none
      else match pyIntParse (pySplitHead '-' s.toList) with
        | some n => Except.ok (some n)
        | none => Except.error PyError.valueError) = _
    rw [if_neg hne, hseg, hparse, hspec]
  · intro s hne hparse
    show (if s = "" then Except.ok none
      else match pyIntParse (pySplitHead '-' s.toList) with
        | some n => Except.ok (some n)
        | none => Except.error PyError.valueError) = _
    rw [if_neg hne, hparse]

theorem release_year_parse_characterization_witness :
    extract_release_year (some "2021-05-01") =
      Except.ok (specReleaseYear (some "2021-05-01")) ∧
    extract_release_year (some "n/a") = Except.error PyError.valueError :=
  ⟨release_year_parse_characterization.2.2.1 '2' '0' '2' '1' "2021-05-01"
      (by decide) (by decide),
    release_year_parse_characterization.2.2.2 "n/a" (by decide) (by decide)⟩

/-! ## Claims C1 and C6: bulk merge -/

/-- C1 counterexample: both reference rows normalize to
`("shape of you", "ed sheeran")`; the popularity-95 row is listed first, the
popularity-90 row second.  No dedup happens: both UPDATEs run and the
measures that persist are the popularity-90 row's, not the popularity-95
row's. -/
theorem bulk_merge_dedup_counterexample :
    kagKey csKagPop95 = projKey csSong ∧
    kagKey csKagPop90 = projKey csSong ∧
    csKagPop95.track_popularity = 95 ∧
    csKagPop90.track_popularity = 90 ∧
    update_spotify_audiofeatures
      (merge_kaggle_with_db_songs [csKagPop95, csKagPop90] [csSong]) csFeats =
      [⟨1, 10, some 1, some 30, some 40, some 90, some 80, some 1⟩] ∧
    (some 1 : Option Int) ≠ csKagPop95.valence := by
  exact ⟨by decide, by decide, by decide, by decide, by decide, by decide⟩

/-- C1 (amended): no dedup is performed: every reference row matching the
normalized key is joined and applied in dataset order, so the measures of
the LAST matching row with a non-null valence persist — regardless of
popularity. -/
theorem bulk_merge_last_match_wins (s : ProjSongRow) (k1 k2 : KaggleRow) (fr : FeatRow)
    (v1 v2 : Int)
    (h1 : kagKey k1 = projKey s) (h2 : kagKey k2 = projKey s)
    (hv1 : k1.valence = some v1) (hv2 : k2.valence = some v2)
    (hs : fr.song_id = s.song_id) :
    update_spotify_audiofeatures (merge_kaggle_with_db_songs [k1, k2] [s]) [fr] =
      [{ fr with
         valence := some v2
         energy := k2.energy
         danceability := k2.danceability
         tempo := k2.tempo
         acousticness := k2.acousticness
         instrumentalness := k2.instrumentalness }] := by
  have hm : merge_kaggle_with_db_songs [k1, k2] [s] = [(s, some k1), (s, some k2)] := by
    unfold merge_kaggle_with_db_songs
    simp [List.filter, h1, h2]
  rw [hm]
  show kagStep (kagStep [fr] (s, some k1)) (s, some k2) = _
  have e2 : kagStep [fr] (s, some k1) =
      [{ fr with
         valence := some v1
         energy := k1.energy
         danceability := k1.danceability
         tempo := k1.tempo
         acousticness := k1.acousticness
         instrumentalness := k1.instrumentalness }] := by
    simp [kagStep, hv1, applyKaggleUpdate, hs]
  rw [e2]
  simp [kagStep, hv2, applyKaggleUpdate, hs]

theorem bulk_merge_last_match_wins_witness :
    update_spotify_audiofeatures
      (merge_kaggle_with_db_songs [csKagPop95, csKagPop90] [csSong]) csFeats =
      [{ (⟨1, 10, none, none, none, none, none, none⟩ : FeatRow) with
         valence := some 1
         energy := csKagPop90.energy
         danceability := csKagPop90.danceability
         tempo := csKagPop90.tempo
         acousticness := csKagPop90.acousticness
         instrumentalness := csKagPop90.instrumentalness }] :=
  bulk_merge_last_match_wins csSong csKagPop95 csKagPop90
    ⟨1, 10, none, none, none, none, none, none⟩ 9 1
    (by decide) (by decide) rfl rfl rfl

theorem featRowsFor_applyOther {sid sid' : Nat} (hne : sid' ≠ sid)
    (k : KaggleRow) (v : Int) :
    ∀ (tbl : List FeatRow),
      featRowsFor sid (applyKaggleUpdate k sid' v tbl) = featRowsFor sid tbl
  | [] => rfl
  | fr :: rest => by
    have ih := featRowsFor_applyOther hne k v rest
    have hbe2 : (sid' == sid) = false := by
      rw [beq_eq_false_iff_ne]; exact hne
    by_cases hfr : fr.song_id = sid'
    · simp only [applyKaggleUpdate, featRowsFor, List.map_cons, List.filter_cons] at ih ⊢
      simp [hfr, hbe2, ih]
    · simp only [applyKaggleUpdate, featRowsFor, List.map_cons, List.filter_cons] at ih ⊢
      by_cases hb : (fr.song_id == sid) = true
      · simp [hfr, hb, ih]
      · simp [hfr, hb, ih]

theorem update_fold_other {sid : Nat} :
    ∀ (merged : List (ProjSongRow × Option KaggleRow)) (tbl : List FeatRow),
      (∀ p ∈ merged, ∀ k : KaggleRow, p.2 = some k → k.valence ≠ none →
        p.1.song_id ≠ sid) →
      featRowsFor sid (update_spotify_audiofeatures merged tbl) = featRowsFor sid tbl
  | [], _, _ => rfl
  | p :: ms, tbl, h => by
    have htl : ∀ q ∈ ms, ∀ k : KaggleRow, q.2 = some k → k.valence ≠ none →
        q.1.song_id ≠ sid := fun q hq => h q (List.mem_cons_of_mem p hq)
    have hstep : update_spotify_audiofeatures (p :: ms) tbl =
        update_spotify_audiofeatures ms (kagStep tbl p) := rfl
    rw [hstep]
    cases hp2 : p.2 with
    | none =>
      have hk : kagStep tbl p = tbl := by simp [kagStep, hp2]
      rw [hk]
      exact update_fold_other ms tbl htl
    | some k =>
      cases hkv : k.valence with
      | none =>
        have hk : kagStep tbl p = tbl := by simp [kagStep, hp2, hkv]
        rw [hk]
        exact update_fold_other ms tbl htl
      | some v =>
        have hne : p.1.song_id ≠ sid :=
          h p (List.mem_cons_self p ms) k hp2 (by rw [hkv]; intro hx; cases hx)
        have hk : kagStep tbl p = applyKaggleUpdate k p.1.song_id v tbl := by
          simp [kagStep, hp2, hkv]
        rw [hk, update_fold_other ms _ htl, featRowsFor_applyOther hne k v tbl]

/-- C6: a bulk reference row with a null valence is never applied — for a
song id all of whose matching reference rows have null valence, the
AudioFeatures rows are unchanged by the whole bulk merge. -/
theorem null_valence_never_applied (sid : Nat) (songs : List ProjSongRow)
    (kaggle : List KaggleRow) (tbl : List FeatRow)
    (h : ∀ s ∈ songs, s.song_id = sid →
      ∀ k ∈ kaggle, kagKey k = projKey s → k.valence = none) :
    featRowsFor sid
      (update_spotify_audiofeatures (merge_kaggle_with_db_songs kaggle songs) tbl) =
      featRowsFor sid tbl := by
  apply update_fold_other
  intro p hp k hk hv
  obtain ⟨s, hs, hpin⟩ := List.mem_flatMap.mp hp
  cases hflt : kaggle.filter (fun k' => kagKey k' = projKey s) with
  | nil =>
    rw [hflt] at hpin
    simp only [List.mem_singleton] at hpin
    rw [hpin] at hk
    cases hk
  | cons k0 ks =>
    rw [hflt] at hpin
    obtain ⟨k', hk', hpe⟩ := List.mem_map.mp hpin
    rw [← hpe] at hk
    have hkk : k = k' := by
      injection hk with hk2
      rw [hk2]
    subst hkk
    have hkin : k ∈ kaggle.filter (fun k' => kagKey k' = projKey s) := by
      rw [hflt]; exact hk'
    have hkey : kagKey k = projKey s := by
      have := List.of_mem_filter hkin
      simpa using this
    have hkmem : k ∈ kaggle := List.mem_of_mem_filter hkin
    intro hsid
    have hp1 : p.1 = s := by rw [← hpe]
    rw [hp1] at hsid
    exact hv (h s hs hsid k hkmem hkey)

theorem null_valence_never_applied_witness :
    featRowsFor 10 (update_spotify_audiofeatures
      (merge_kaggle_with_db_songs [csKagNull] [csSong]) csFeats) =
      featRowsFor 10 csFeats :=
  null_valence_never_applied 10 [csSong] [csKagNull] csFeats (by decide)

/-! ## Claim C3: uniqueness constraints of the store -/

/-- C3 counterexample: the DDL declares no uniqueness on
`SpotifyAudioFeatures.song_id` (`ensure_indexes` only creates the `week`
index), so the store accepts a second row with an already-present song id:
after the insert two rows carry `song_id = 7`. -/
theorem audiofeatures_song_id_unique_counterexample :
    ("SpotifyAudioFeatures", ["song_id"]) ∉ storeUniqueIndexes ∧
    featInsertAccepted [⟨1, 7, none, none, none, none, none, none⟩]
      ⟨2, 7, none, none, none, none, none, none⟩ = true ∧
    (([⟨1, 7, none, none, none, none, none, none⟩,
       ⟨2, 7, none, none, none, none, none, none⟩] : List FeatRow).filter
      (fun r => r.song_id == 7)).length = 2 := by
  exact ⟨by decide, by decide, by decide⟩

/-- C3 (amended): the store's uniqueness constraints are the declared
PRIMARY KEYs, the UNIQUE lookup-name columns, the CDCRaw 4-tuple, and — via
`ensure_indexes` — `MentalHealthTrends.week`.  There is none on
`SpotifyAudioFeatures.song_id`: any insert whose primary key is fresh is
accepted, even with a duplicate song id. -/
theorem store_uniqueness_characterization :
    ("MentalHealthTrends", ["week"]) ∈ storeUniqueIndexes ∧
    ("CDCRaw", ["group_id", "state_id", "indicator_id", "time_id"]) ∈ storeUniqueIndexes ∧
    ("Artists", ["artist_name"]) ∈ storeUniqueIndexes ∧
    ("SpotifyAudioFeatures", ["song_id"]) ∉ storeUniqueIndexes ∧
    (∀ (tbl : List FeatRow) (r : FeatRow), (∀ r' ∈ tbl, r'.id ≠ r.id) →
      featInsertAccepted tbl r = true) := by
  refine ⟨by decide, by decide, by decide, by decide, ?_⟩
  intro tbl r h
  unfold featInsertAccepted storeUniqueIndexes createTablesUnique ensureIndexesUnique
  simp only [List.all_cons, List.all_nil, List.append_assoc, List.cons_append,
    List.nil_append]
  simp only [Bool.and_eq_true, Bool.or_eq_true]
  refine ⟨?_, ?_, ?_, ?_, ?_, ?_, ?_, ?_, ?_, ?_, ?_, ?_, ?_, ?_, ?_, ?_, ?_, ?_, ?_⟩ <;>
    first
    | trivial
    | (left; decide)
    | (right
       rw [List.all_eq_true]
       intro r' hr'
       simp only [List.all_cons, List.all_nil, Bool.and_true]
       have hne : featField r' "id" ≠ featField r "id" := by
         unfold featField
         simp only [if_pos rfl]
         intro hx
         injection hx with hx2
         exact h r' hr' (Int.ofNat.inj hx2)
       simp [hne])

theorem store_uniqueness_characterization_witness :
    featInsertAccepted [⟨1, 7, none, none, none, none, none, none⟩]
      ⟨2, 7, none, none, none, none, none, none⟩ = true :=
  store_uniqueness_characterization.2.2.2.2
    [⟨1, 7, none, none, none, none, none, none⟩]
    ⟨2, 7, none, none, none, none, none, none⟩ (by decide)

/-! ## Resolver loop lemmas (claims C2, C5, C8) -/

theorem except_map_ok {ε α β : Type} {f : α → β} {x : Except ε α} {y : β}
    (h : x.map f = Except.ok y) : ∃ z, x = Except.ok z ∧ y = f z := by
  cases x with
  | ok z =>
    refine ⟨z, rfl, ?_⟩
    injection h with h2
    rw [← h2]
  | error e => cases h

/-- Unfolding `populate_spotify_go` on a nonempty row list. -/
theorem populate_spotify_go_cons (search : String → Except PyError (Option TrackObj))
    (af : String → Except PyError (Option FeaturesObj)) (r : ScrapedRow)
    (rs : List ScrapedRow) (st : DbState) :
    populate_spotify_go search af (r :: rs) st =
      (if hasSongFor st r.id = true then populate_spotify_go search af rs st
       else
        match get_spotify_track search af r.song_title r.artist_name with
        | Except.error e => Except.error e
        | Except.ok none =>
          (populate_spotify_go search af rs st).map (fun p => (r.id :: p.1, p.2))
        | Except.ok (some info) =>
          (populate_spotify_go search af rs
            (store_spotify_song info r.id st).2).map (fun p => (r.id :: p.1, p.2))) :=
  rfl

theorem populate_spotify_go_state (search : String → Except PyError (Option TrackObj))
    (af : String → Except PyError (Option FeaturesObj)) :
    ∀ (rows : List ScrapedRow) (st : DbState) (out : List Nat × DbState),
      populate_spotify_go search af rows st = Except.ok out →
      out.2.scraped = st.scraped ∧ out.2.pops = st.pops ∧
      ∃ ext, out.2.songs = st.songs ++ ext ∧
        ∀ s ∈ ext, ∃ rr ∈ rows, s.scraped_song_id = rr.id
  | [], st, out, h => by
    injection h with h2
    rw [← h2]
    exact ⟨rfl, rfl, [], by simp, by simp⟩
  | r :: rs, st, out, h => by
    rw [populate_spotify_go_cons] at h
    by_cases hh : hasSongFor st r.id = true
    · rw [if_pos hh] at h
      obtain ⟨h1, h2, ext, h3, h4⟩ := populate_spotify_go_state search af rs st out h
      exact ⟨h1, h2, ext, h3, fun s hs =>
        let ⟨rr, hmem, hid⟩ := h4 s hs
        ⟨rr, List.mem_cons_of_mem r hmem, hid⟩⟩
    · rw [if_neg hh] at h
      cases htr : get_spotify_track search af r.song_title r.artist_name with
      | error e =>
        rw [htr] at h
        cases h
      | ok oinfo =>
        rw [htr] at h
        cases oinfo with
        | none =>
          obtain ⟨p, hp, hout⟩ := except_map_ok h
          obtain ⟨h1, h2, ext, h3, h4⟩ := populate_spotify_go_state search af rs st p hp
          rw [hout]
          exact ⟨h1, h2, ext, h3, fun s hs =>
            let ⟨rr, hmem, hid⟩ := h4 s hs
            ⟨rr, List.mem_cons_of_mem r hmem, hid⟩⟩
        | some info =>
          obtain ⟨p, hp, hout⟩ := except_map_ok h
          obtain ⟨h1, h2, ext, h3, h4⟩ :=
            populate_spotify_go_state search af rs (store_spotify_song info r.id st).2 p hp
          rw [hout]
          have hsongs : (store_spotify_song info r.id st).2.songs =
              st.songs ++ [⟨nextId (st.songs.map (fun s => s.song_id)), r.id,
                info.track_id, info.genre, info.popularity, info.release_year⟩] := rfl
          refine ⟨h1, h2,
            ⟨nextId (st.songs.map (fun s => s.song_id)), r.id, info.track_id,
              info.genre, info.popularity, info.release_year⟩ :: ext, ?_, ?_⟩
          · rw [h3, hsongs, List.append_assoc]
            rfl
          · intro s hs
            rcases List.mem_cons.mp hs with rfl | hs'
            · exact ⟨r, List.mem_cons_self r rs, rfl⟩
            · let ⟨rr, hmem, hid⟩ := h4 s hs'
              exact ⟨rr, List.mem_cons_of_mem r hmem, hid⟩

theorem hasSongFor_mono {search : String → Except PyError (Option TrackObj)}
    {af : String → Except PyError (Option FeaturesObj)} {rows : List ScrapedRow}
    {st : DbState} {out : List Nat × DbState} {i : Nat}
    (h : populate_spotify_go search af rows st = Except.ok out)
    (hi : hasSongFor st i = true) : hasSongFor out.2 i = true := by
  obtain ⟨_, _, ext, h3, _⟩ := populate_spotify_go_state search af rows st out h
  unfold hasSongFor at hi ⊢
  rw [h3, List.any_append, hi, Bool.true_or]

theorem hasSongFor_stable {search : String → Except PyError (Option TrackObj)}
    {af : String → Except PyError (Option FeaturesObj)} {rows : List ScrapedRow}
    {st : DbState} {out : List Nat × DbState} {i : Nat}
    (h : populate_spotify_go search af rows st = Except.ok out)
    (hi : ∀ rr ∈ rows, rr.id ≠ i) : hasSongFor out.2 i = hasSongFor st i := by
  obtain ⟨_, _, ext, h3, h4⟩ := populate_spotify_go_state search af rows st out h
  unfold hasSongFor
  rw [h3, List.any_append]
  have hext : ext.any (fun s => s.scraped_song_id == i) = false := by
    rw [List.any_eq_false]
    intro s hs
    obtain ⟨rr, hmem, hid⟩ := h4 s hs
    rw [hid]
    intro he
    rw [beq_iff_eq] at he
    exact hi rr hmem he
  rw [hext, Bool.or_false]

theorem populate_spotify_go_attempted
    (search : String → Except PyError (Option TrackObj))
    (af : String → Except PyError (Option FeaturesObj)) :
    ∀ (rows : List ScrapedRow) (st : DbState) (out : List Nat × DbState),
      (rows.map (fun r => r.id)).Nodup →
      populate_spotify_go search af rows st = Except.ok out →
      out.1 = (rows.filter (fun r => !hasSongFor st r.id)).map (fun r => r.id)
  | [], st, out, _, h => by
    injection h with h2
    rw [← h2]
    rfl
  | r :: rs, st, out, hnd, h => by
    rw [populate_spotify_go_cons] at h
    rw [List.map_cons] at hnd
    obtain ⟨hr, hnd'⟩ := List.nodup_cons.mp hnd
    by_cases hh : hasSongFor st r.id = true
    · rw [if_pos hh] at h
      have ih := populate_spotify_go_attempted search af rs st out hnd' h
      rw [ih, List.filter_cons]
      rw [show (!hasSongFor st r.id) = false from by rw [hh]; rfl]
      simp
    · rw [if_neg hh] at h
      rw [Bool.not_eq_true] at hh
      cases htr : get_spotify_track search af r.song_title r.artist_name with
      | error e =>
        rw [htr] at h
        cases h
      | ok oinfo =>
        rw [htr] at h
        cases oinfo with
        | none =>
          obtain ⟨p, hp, hout⟩ := except_map_ok h
          have ih := populate_spotify_go_attempted search af rs st p hnd' hp
          rw [hout]
          show r.id :: p.1 = _
          rw [ih, List.filter_cons]
          rw [show (!hasSongFor st r.id) = true from by rw [hh]; rfl]
          simp
        | some info =>
          obtain ⟨p, hp, hout⟩ := except_map_ok h
          have ih := populate_spotify_go_attempted search af rs
            (store_spotify_song info r.id st).2 p hnd' hp
          have hcong : rs.filter
              (fun x => !hasSongFor (store_spotify_song info r.id st).2 x.id) =
              rs.filter (fun x => !hasSongFor st x.id) := by
            apply List.filter_congr
            intro x hx
            have hxne : (r.id == x.id) = false := by
              rw [beq_eq_false_iff_ne]
              intro he
              exact hr (he ▸ List.mem_map_of_mem (fun rr => rr.id) hx)
            have heq : hasSongFor (store_spotify_song info r.id st).2 x.id =
                hasSongFor st x.id := by
              unfold hasSongFor
              rw [show (store_spotify_song info r.id st).2.songs =
                st.songs ++ [⟨nextId (st.songs.map (fun s => s.song_id)), r.id,
                  info.track_id, info.genre, info.popularity,
                  info.release_year⟩] from rfl, List.any_append]
              have hone : ([(⟨nextId (st.songs.map (fun s => s.song_id)), r.id,
                  info.track_id, info.genre, info.popularity,
                  info.release_year⟩ : SongRow)]).any
                  (fun s => s.scraped_song_id == x.id) = false := by
                simp only [List.any_cons, List.any_nil, Bool.or_false]
                exact hxne
              rw [hone, Bool.or_false]
            rw [heq]
          rw [hout]
          show r.id :: p.1 = _
          rw [ih, hcong, List.filter_cons]
          rw [show (!hasSongFor st r.id) = true from by rw [hh]; rfl]
          simp

theorem insertById_perm (r : ScrapedRow) :
    ∀ (l : List ScrapedRow), (insertById r l).Perm (r :: l)
  | [] => List.Perm.refl _
  | x :: xs => by
    by_cases hle : r.id ≤ x.id
    · show (if r.id ≤ x.id then r :: x :: xs else x :: insertById r xs).Perm _
      rw [if_pos hle]
    · show (if r.id ≤ x.id then r :: x :: xs else x :: insertById r xs).Perm _
      rw [if_neg hle]
      exact ((insertById_perm r xs).cons x).trans (List.Perm.swap r x xs)

theorem sortById_perm : ∀ (l : List ScrapedRow), (sortById l).Perm l
  | [] => List.Perm.refl _
  | x :: xs => by
    show (insertById x (sortById xs)).Perm (x :: xs)
    exact (insertById_perm x (sortById xs)).trans ((sortById_perm xs).cons x)

theorem insertById_mem {y r : ScrapedRow} :
    ∀ {l : List ScrapedRow}, y ∈ insertById r l → y = r ∨ y ∈ l :=
  fun {l} hy => by
    have := (insertById_perm r l).mem_iff.mp hy
    simpa using this

theorem insertById_sorted {r : ScrapedRow} :
    ∀ {l : List ScrapedRow}, l.Pairwise (fun a b => a.id ≤ b.id) →
      (insertById r l).Pairwise (fun a b => a.id ≤ b.id)
  | [], _ => by simp [insertById]
  | x :: xs, h => by
    obtain ⟨hx, hxs⟩ := List.pairwise_cons.mp h
    by_cases hle : r.id ≤ x.id
    · show (if r.id ≤ x.id then r :: x :: xs else x :: insertById r xs).Pairwise _
      rw [if_pos hle]
      refine List.pairwise_cons.mpr ⟨?_, h⟩
      intro y hy
      rcases List.mem_cons.mp hy with rfl | hy'
      · exact hle
      · exact le_trans hle (hx y hy')
    · show (if r.id ≤ x.id then r :: x :: xs else x :: insertById r xs).Pairwise _
      rw [if_neg hle]
      refine List.pairwise_cons.mpr ⟨?_, insertById_sorted hxs⟩
      intro y hy
      rcases insertById_mem hy with rfl | hy'
      · omega
      · exact hx y hy'

theorem sortById_sorted :
    ∀ (l : List ScrapedRow), (sortById l).Pairwise (fun a b => a.id ≤ b.id)
  | [] => List.Pairwise.nil
  | _ :: xs => insertById_sorted (sortById_sorted xs)

theorem spotWindow_nodup {limit : Option Nat} {st : DbState}
    (h : (st.scraped.map (fun r => r.id)).Nodup) :
    ((spotWindow limit st).map (fun r => r.id)).Nodup := by
  have hperm : ((sortById st.scraped).map (fun r => r.id)).Perm
      (st.scraped.map (fun r => r.id)) := (sortById_perm st.scraped).map _
  have hsorted : ((sortById st.scraped).map (fun r => r.id)).Nodup :=
    hperm.nodup_iff.mpr h
  cases limit with
  | none => exact hsorted
  | some q =>
    exact List.Sublist.nodup (List.Sublist.map _ (List.take_sublist q _)) hsorted

theorem spotWindow_congr {limit : Option Nat} {st st' : DbState}
    (h : st'.scraped = st.scraped) : spotWindow limit st' = spotWindow limit st := by
  cases limit <;> simp [spotWindow, h]

/-! ## Claim C2: incremental fetch cursor -/

/-- C2 counterexample: ScrapedSongs 1 (already resolved) and 2 (unresolved),
quota 1, a lookup that always succeeds.  An anti-join cursor returns row 2;
the code applies `LIMIT` before the already-processed check, fetches only
row 1, skips it, and processes nothing — the state does not change. -/
theorem cursor_not_antijoin_counterexample :
    specAntiJoinCursor c2State 1 = [2] ∧
    populate_spotify_for_scraped_songs (some 1) c2Search c2Af c2State =
      Except.ok ([], c2State) := by
  exact ⟨by decide, by decide⟩

/-- C2 (amended): the Spotify cursor hands to the lookup exactly the
unresolved rows among the first `quota` ScrapedSongs rows by ascending id
(so it never hands over an id that already has a Songs row, and its output
is sorted — but it may process fewer than `quota` unresolved rows even when
more exist).  The Last.fm cursor is a true anti-join with the limit applied
after it. -/
theorem incremental_cursor_characterization :
    (∀ (st : DbState) (q : Nat) (search : String → Except PyError (Option TrackObj))
      (af : String → Except PyError (Option FeaturesObj)) (out : List Nat × DbState),
      (st.scraped.map (fun r => r.id)).Nodup →
      populate_spotify_for_scraped_songs (some q) search af st = Except.ok out →
      out.1 = (((sortById st.scraped).take q).filter
        (fun r => !hasSongFor st r.id)).map (fun r => r.id) ∧
      (∀ i ∈ out.1, hasSongFor st i = false) ∧
      out.1.Pairwise (fun a b => a ≤ b)) ∧
    (∀ (st : DbState) (q : Nat) (lookup : String → String → Option (Int × Int)),
      (populate_lastfm q lookup st).1 =
        (((lastfmCandidates st).filter
          (fun c => !st.pops.any (fun p => p.song_id == c.1))).take q).map
          (fun c => c.1) ∧
      (populate_lastfm q lookup st).1.length ≤ q ∧
      (∀ i ∈ (populate_lastfm q lookup st).1,
        st.pops.any (fun p => p.song_id == i) = false)) := by
  constructor
  · intro st q search af out hnd hrun
    have hwnd := @spotWindow_nodup (some q) st hnd
    have hatt := populate_spotify_go_attempted search af (spotWindow (some q) st)
      st out hwnd hrun
    refine ⟨hatt, ?_, ?_⟩
    · intro i hi
      rw [hatt] at hi
      obtain ⟨r, hrf, hri⟩ := List.mem_map.mp hi
      have := List.of_mem_filter hrf
      rw [← hri]
      rw [Bool.not_eq_true'] at this
      exact this
    · rw [hatt]
      have h1 : ((sortById st.scraped).take q).Pairwise (fun a b => a.id ≤ b.id) :=
        (sortById_sorted st.scraped).sublist (List.take_sublist q _)
    -- filter then map
      have h2 := h1.sublist (List.filter_sublist (l := (sortById st.scraped).take q)
        (p := fun r => !hasSongFor st r.id))
      exact List.pairwise_map.mpr h2
  · intro st q lookup
    refine ⟨rfl, ?_, ?_⟩
    · show ((((lastfmCandidates st).filter
        (fun c => !st.pops.any (fun p => p.song_id == c.1))).take q).map
          (fun c => c.1)).length ≤ q
      rw [List.length_map]
      exact List.length_take_le q _
    · intro i hi
      obtain ⟨c, hc, hci⟩ := List.mem_map.mp hi
      have hcf := List.take_subset q _ hc
      have := List.of_mem_filter hcf
      rw [← hci]
      rw [Bool.not_eq_true'] at this
      exact this

theorem incremental_cursor_characterization_witness :
    ([] : List Nat) = (((sortById c2State.scraped).take 1).filter
      (fun r => !hasSongFor c2State r.id)).map (fun r => r.id) ∧
    (∀ i ∈ ([] : List Nat), hasSongFor c2State i = false) ∧
    ([] : List Nat).Pairwise (fun a b => a ≤ b) :=
  incremental_cursor_characterization.1 c2State 1 c2Search c2Af ([], c2State)
    (by decide) (by decide)

/-! ## Claim C8: resolver idempotence -/

theorem populate_spotify_go_second_run
    (search : String → Except PyError (Option TrackObj))
    (af : String → Except PyError (Option FeaturesObj)) :
    ∀ (rows : List ScrapedRow) (st : DbState) (att : List Nat) (st' : DbState),
      (rows.map (fun r => r.id)).Nodup →
      st.songs.Pairwise (fun a b => a.scraped_song_id ≠ b.scraped_song_id) →
      populate_spotify_go search af rows st = Except.ok (att, st') →
      st'.songs.Pairwise (fun a b => a.scraped_song_id ≠ b.scraped_song_id) ∧
      ∃ att₂, populate_spotify_go search af rows st' = Except.ok (att₂, st')
  | [], st, att, st', _, hpw, h => by
    injection h with h2
    have hst : st = st' := congrArg Prod.snd h2
    subst hst
    exact ⟨hpw, [], rfl⟩
  | r :: rs, st, att, st', hnd, hpw, h => by
    rw [populate_spotify_go_cons] at h
    rw [List.map_cons] at hnd
    obtain ⟨hr, hnd'⟩ := List.nodup_cons.mp hnd
    have hrne : ∀ rr ∈ rs, rr.id ≠ r.id := by
      intro rr hmem he
      exact hr (he ▸ List.mem_map_of_mem (fun x => x.id) hmem)
    by_cases hh : hasSongFor st r.id = true
    · rw [if_pos hh] at h
      obtain ⟨hpw', att₂, h2⟩ :=
        populate_spotify_go_second_run search af rs st att st' hnd' hpw h
      have hh' : hasSongFor st' r.id = true :=
        hasSongFor_mono h hh
      refine ⟨hpw', att₂, ?_⟩
      rw [populate_spotify_go_cons, if_pos hh']
      exact h2
    · rw [if_neg hh] at h
      rw [Bool.not_eq_true] at hh
      cases htr : get_spotify_track search af r.song_title r.artist_name with
      | error e =>
        rw [htr] at h
        cases h
      | ok oinfo =>
        rw [htr] at h
        cases oinfo with
        | none =>
          obtain ⟨p, hp, hout⟩ := except_map_ok h
          obtain ⟨att', st''⟩ := p
          have hst : st' = st'' := congrArg Prod.snd hout
          subst hst
          obtain ⟨hpw', att₂, h2⟩ :=
            populate_spotify_go_second_run search af rs st att' st' hnd' hpw hp
          have hstable : hasSongFor st' r.id = hasSongFor st r.id :=
            hasSongFor_stable hp hrne
          refine ⟨hpw', r.id :: att₂, ?_⟩
          rw [populate_spotify_go_cons,
            if_neg (by rw [hstable, hh]; intro hx; cases hx), htr, h2]
          rfl
        | some info =>
          obtain ⟨p, hp, hout⟩ := except_map_ok h
          obtain ⟨att', st''⟩ := p
          have hst : st' = st'' := congrArg Prod.snd hout
          subst hst
          have hnot : ∀ s ∈ st.songs, s.scraped_song_id ≠ r.id := by
            intro s hs he
            have : st.songs.any (fun x => x.scraped_song_id == r.id) = false := hh
            rw [List.any_eq_false] at this
            exact this s hs (by rw [he]; exact beq_self_eq_true r.id)
          have hpw1 : (store_spotify_song info r.id st).2.songs.Pairwise
              (fun a b => a.scraped_song_id ≠ b.scraped_song_id) := by
            rw [show (store_spotify_song info r.id st).2.songs =
              st.songs ++ [⟨nextId (st.songs.map (fun s => s.song_id)), r.id,
                info.track_id, info.genre, info.popularity,
                info.release_year⟩] from rfl]
            rw [List.pairwise_append]
            exact ⟨hpw, List.pairwise_singleton _ _,
              fun a ha b hb => by
                rw [List.mem_singleton] at hb
                rw [hb]
                exact hnot a ha⟩
          obtain ⟨hpw', att₂, h2⟩ :=
            populate_spotify_go_second_run search af rs
              (store_spotify_song info r.id st).2 att' st' hnd' hpw1 hp
          have hh1 : hasSongFor (store_spotify_song info r.id st).2 r.id = true := by
            unfold hasSongFor
            rw [show (store_spotify_song info r.id st).2.songs =
              st.songs ++ [⟨nextId (st.songs.map (fun s => s.song_id)), r.id,
                info.track_id, info.genre, info.popularity,
                info.release_year⟩] from rfl, List.any_append]
            simp
          have hh' : hasSongFor st' r.id = true :=
            hasSongFor_mono hp hh1
          refine ⟨hpw', att₂, ?_⟩
          rw [populate_spotify_go_cons, if_pos hh']
          exact h2

/-- C8: provided ScrapedSongs ids are distinct (primary key) and the state
already has at most one Songs row per scraped id, one resolver pass
preserves that invariant, and re-running the pass on the resulting state
changes nothing: an already-resolved chart entry is skipped, so no
duplicate CatalogEntry rows are created. -/
theorem resolver_at_most_one_catalog_entry (limit : Option Nat)
    (search : String → Except PyError (Option TrackObj))
    (af : String → Except PyError (Option FeaturesObj))
    (st : DbState) (att : List Nat) (st' : DbState)
    (hnd : (st.scraped.map (fun r => r.id)).Nodup)
    (hpw : st.songs.Pairwise (fun a b => a.scraped_song_id ≠ b.scraped_song_id))
    (hrun : populate_spotify_for_scraped_songs limit search af st =
      Except.ok (att, st')) :
    st'.songs.Pairwise (fun a b => a.scraped_song_id ≠ b.scraped_song_id) ∧
    ∃ att₂, populate_spotify_for_scraped_songs limit search af st' =
      Except.ok (att₂, st') := by
  have hwnd := @spotWindow_nodup limit st hnd
  obtain ⟨hpw', att₂, h2⟩ := populate_spotify_go_second_run search af
    (spotWindow limit st) st att st' hwnd hpw hrun
  have hscr : st'.scraped = st.scraped :=
    (populate_spotify_go_state search af (spotWindow limit st) st (att, st') hrun).1
  refine ⟨hpw', att₂, ?_⟩
  show populate_spotify_go search af (spotWindow limit st') st' = _
  rw [spotWindow_congr hscr]
  exact h2

theorem resolver_at_most_one_catalog_entry_witness :
    (⟨[⟨1, "t", "a"⟩], [⟨1, 1, "T", none, none, none⟩],
      [⟨1, 1, none, none, none, none, none, none⟩], []⟩ : DbState).songs.Pairwise
      (fun a b => a.scraped_song_id ≠ b.scraped_song_id) ∧
    ∃ att₂, populate_spotify_for_scraped_songs none c2Search c2Af
      ⟨[⟨1, "t", "a"⟩], [⟨1, 1, "T", none, none, none⟩],
        [⟨1, 1, none, none, none, none, none, none⟩], []⟩ =
      Except.ok (att₂,
        ⟨[⟨1, "t", "a"⟩], [⟨1, 1, "T", none, none, none⟩],
          [⟨1, 1, none, none, none, none, none, none⟩], []⟩) :=
  resolver_at_most_one_catalog_entry none c2Search c2Af
    ⟨[⟨1, "t", "a"⟩], [], [], []⟩ [1]
    ⟨[⟨1, "t", "a"⟩], [⟨1, 1, "T", none, none, none⟩],
      [⟨1, 1, none, none, none, none, none, none⟩], []⟩
    (by decide) (by decide) (by decide)

/-! ## Claim C5: failure handling in the resolver batch -/

/-- C5 counterexample: the Spotify search fails (network/HTTP error) for the
first item only; the claim says that item is skipped and the batch
continues, but the run aborts with the error — the second item, whose
lookup would succeed, is never processed and nothing is stored. -/
theorem lookup_failure_aborts_batch_counterexample :
    populate_spotify_for_scraped_songs none c5Search c2Af c5State =
      Except.error PyError.spotifyError ∧
    c5Search "track:t2 artist:a2" = Except.ok (some ⟨"T", "n", "ar", none, none⟩) := by
  exact ⟨by decide, by decide⟩

/-- C5 (amended): no `try` wraps the per-item Spotify search — a search
failure propagates out of `get_spotify_track` and aborts the whole batch at
the first unresolved item.  Only the audio-features sub-call's
`SpotifyException` is caught, and then the item is not skipped: it is
returned (and stored) with all-null acoustic measures. -/
theorem resolver_failure_propagation :
    (∀ (search : String → Except PyError (Option TrackObj))
      (af : String → Except PyError (Option FeaturesObj))
      (title artist : String) (e : PyError),
      search ("track:" ++ title ++ " artist:" ++ artist) = Except.error e →
      get_spotify_track search af title artist = Except.error e) ∧
    (∀ (search : String → Except PyError (Option TrackObj))
      (af : String → Except PyError (Option FeaturesObj))
      (r : ScrapedRow) (rs : List ScrapedRow) (st : DbState) (e : PyError),
      hasSongFor st r.id = false →
      get_spotify_track search af r.song_title r.artist_name = Except.error e →
      populate_spotify_go search af (r :: rs) st = Except.error e) ∧
    (∀ (search : String → Except PyError (Option TrackObj))
      (af : String → Except PyError (Option FeaturesObj))
      (title artist : String) (track : TrackObj) (y : Option Int),
      search ("track:" ++ title ++ " artist:" ++ artist) = Except.ok (some track) →
      extract_release_year track.releaseDate = Except.ok y →
      af track.id = Except.error PyError.spotifyError →
      get_spotify_track search af title artist = Except.ok (some
        { track_id := track.id
          song_title := track.name
          artist_name := track.artistName
          release_year := y
          popularity := track.popularity
          valence := none
          energy := none
          danceability := none
          tempo := none
          acousticness := none
          instrumentalness := none
          genre := none })) := by
  refine ⟨?_, ?_, ?_⟩
  · intro search af title artist e hs
    unfold get_spotify_track
    rw [hs]
    rfl
  · intro search af r rs st e hh htr
    rw [populate_spotify_go_cons, if_neg (by rw [hh]; intro hx; cases hx), htr]
  · intro search af title artist track y hs hy haf
    unfold get_spotify_track
    rw [hs]
    show (do
      let release_year ← extract_release_year track.releaseDate
      let feats ← match af track.id with
        | Except.ok f => pure f
        | Except.error PyError.spotifyError => pure none
        | Except.error e => throw e
      pure (some ({
        track_id := track.id
        song_title := track.name
        artist_name := track.artistName
        release_year := release_year
        popularity := track.popularity
        valence := feats.bind (fun f => f.valence)
        energy := feats.bind (fun f => f.energy)
        danceability := feats.bind (fun f => f.danceability)
        tempo := feats.bind (fun f => f.tempo)
        acousticness := feats.bind (fun f => f.acousticness)
        instrumentalness := feats.bind (fun f => f.instrumentalness)
        genre := none } : TrackInfo)) : Except PyError (Option TrackInfo)) = _
    rw [hy, haf]
    rfl

theorem resolver_failure_propagation_witness :
    populate_spotify_go c5Search c2Af [⟨1, "t1", "a1"⟩] c5State =
      Except.error PyError.spotifyError ∧
    get_spotify_track c2Search c5Af "t" "a" = Except.ok (some
      { track_id := "T"
        song_title := "n"
        artist_name := "ar"
        release_year := none
        popularity := none
        valence := none
        energy := none
        danceability := none
        tempo := none
        acousticness := none
        instrumentalness := none
        genre := none }) :=
  ⟨resolver_failure_propagation.2.1 c5Search c2Af ⟨1, "t1", "a1"⟩ [] c5State
      PyError.spotifyError (by decide) (by decide),
    resolver_failure_propagation.2.2 c2Search c5Af "t" "a" ⟨"T", "n", "ar", none, none⟩
      none (by decide) (by decide) (by decide)⟩

/-! ## Claim C10: Last.fm popularity completeness -/

theorem populate_lastfm_go_pops (lookup : String → String → Option (Int × Int)) :
    ∀ (rows : List (Nat × String × String)) (st : DbState),
      (∀ p ∈ st.pops, p.listener_count ≠ none ∧ p.playcount ≠ none) →
      ∀ p ∈ (populate_lastfm_go lookup rows st).pops,
        p.listener_count ≠ none ∧ p.playcount ≠ none
  | [], st, h => h
  | c :: cs, st, h => by
    show ∀ p ∈ (match lookup c.2.1 c.2.2 with
      | none => populate_lastfm_go lookup cs st
      | some pop => populate_lastfm_go lookup cs (store_popularity c.1 pop st)).pops,
      p.listener_count ≠ none ∧ p.playcount ≠ none
    cases hlk : lookup c.2.1 c.2.2 with
    | none => exact populate_lastfm_go_pops lookup cs st h
    | some pop =>
      apply populate_lastfm_go_pops lookup cs (store_popularity c.1 pop st)
      intro p hp
      have hp' : p ∈ st.pops ++ [⟨nextId (st.pops.map (fun x => x.id)), c.1,
          some pop.1, some pop.2⟩] := hp
      rcases List.mem_append.mp hp' with hold | hnew
      · exact h p hold
      · rw [List.mem_singleton] at hnew
        rw [hnew]
        refine ⟨?_, ?_⟩ <;> (intro hx; cases hx)

/-- C10: a Popularity row is only ever stored with both counts present —
`get_lastfm_popularity` yields `None` whenever the track is missing, either
count is missing, or either count fails to parse as an integer; and the
population loop preserves "every row has both counts". -/
theorem lastfm_no_partial_popularity :
    (∀ d : LfmResponse, d.track = none → get_lastfm_popularity d = none) ∧
    (∀ (d : LfmResponse) (tr : LfmTrack), d.track = some tr →
      tr.listeners = none ∨ tr.playcount = none → get_lastfm_popularity d = none) ∧
    (∀ (d : LfmResponse) (tr : LfmTrack) (ls pc : String), d.track = some tr →
      tr.listeners = some ls → tr.playcount = some pc →
      pyIntParse ls.toList = none ∨ pyIntParse pc.toList = none →
      get_lastfm_popularity d = none) ∧
    (∀ (limit : Nat) (lookup : String → String → Option (Int × Int)) (st : DbState),
      (∀ p ∈ st.pops, p.listener_count ≠ none ∧ p.playcount ≠ none) →
      ∀ p ∈ (populate_lastfm limit lookup st).2.pops,
        p.listener_count ≠ none ∧ p.playcount ≠ none) := by
  refine ⟨?_, ?_, ?_, ?_⟩
  · intro d hd
    obtain ⟨otr⟩ := d
    have h0 : otr = none := hd
    subst h0
    rfl
  · intro d tr hd hor
    obtain ⟨otr⟩ := d
    have h0 : otr = some tr := hd
    subst h0
    obtain ⟨ols, opc⟩ := tr
    show lfmCounts ⟨ols, opc⟩ = none
    rcases hor with hls | hpc
    · have h1 : ols = none := hls
      subst h1
      rfl
    · have h1 : opc = none := hpc
      subst h1
      cases ols <;> rfl
  · intro d tr ls pc hd hls hpc hor
    obtain ⟨otr⟩ := d
    have h0 : otr = some tr := hd
    subst h0
    obtain ⟨ols, opc⟩ := tr
    have h1 : ols = some ls := hls
    have h2 : opc = some pc := hpc
    subst h1
    subst h2
    show lfmParsePair ls pc = none
    unfold lfmParsePair
    rcases hor with hp | hp
    · rw [hp]
    · rw [hp]
      cases pyIntParse ls.toList <;> rfl
  · intro limit lookup st h
    exact populate_lastfm_go_pops lookup _ st h

theorem lastfm_no_partial_popularity_witness :
    get_lastfm_popularity ⟨some ⟨some "12x", some "7"⟩⟩ = none ∧
    ∀ p ∈ (populate_lastfm 1 (fun _ _ => some (5, 7))
      ⟨[⟨1, "t", "a"⟩], [⟨1, 1, "X", none, none, none⟩], [], []⟩).2.pops,
      p.listener_count ≠ none ∧ p.playcount ≠ none :=
  ⟨lastfm_no_partial_popularity.2.2.1 ⟨some ⟨some "12x", some "7"⟩⟩
      ⟨some "12x", some "7"⟩ "12x" "7" rfl rfl rfl (Or.inl (by decide)),
    lastfm_no_partial_popularity.2.2.2 1 (fun _ _ => some (5, 7))
      ⟨[⟨1, "t", "a"⟩], [⟨1, 1, "X", none, none, none⟩], [], []⟩ (by decide)⟩

end AFA
